import Mathlib

/-!
Verification development for the codelogic-mcp-server impact-analysis core.

The Python sources under `src/codelogic_mcp_server/` (`utils.py`, `handlers.py`,
`handlers/database_impact.py`) are shallowly embedded below.  Machine values are
modelled as a small closed variant type (`JVal`: null / bool / integer / string /
string list), the per-process caches as an explicit `CacheState` record threaded
through the functions, wall-clock time as a natural number, and the remote
CodeLogic server as response oracles (`FetchResult`) passed in as arguments.
Python exceptions are modelled with `Option`/`Except`; a handler outcome is a
`ToolResult` (returned text block, or a raised exception message).
-/

namespace CodeLogic

/-- Python value variant for the open-ended JSON property maps: the code only
ever stores/reads null, booleans, numbers, strings and string lists there.
Numbers are modelled as integers (cyclomatic complexity, instruction counts and
the other statistics are integral). -/
inductive JVal where
  | null
  | boolean (b : Bool)
  | num (n : Int)
  | str (s : String)
  | strs (xs : List String)
deriving DecidableEq, Repr

/-- Dictionary `get` with no default: `props.get(k)` (absent key gives none). -/
def pyGet (props : List (String × JVal)) (k : String) : Option JVal :=
  props.lookup k

/-- Dictionary `get` with a default: `props.get(k, d)`. -/
def pyGetD (props : List (String × JVal)) (k : String) (d : JVal) : JVal :=
  match props.lookup k with
  | some v => v
  | none => d

/-- Python `str()` of a `JVal`. -/
def pyStr : JVal → String
  | JVal.null => "None"
  | JVal.boolean b => if b then "True" else "False"
  | JVal.num n => toString n
  | JVal.str s => s
  | JVal.strs xs => "[" ++ String.intercalate ", " (xs.map (fun s => "\x27" ++ s ++ "\x27")) ++ "]"

/-- Decimal digit-string value, `none` when empty or non-digit. -/
def pyParseDigits (l : List Char) : Option Nat :=
  if l.isEmpty then none
  else
    l.foldl (fun acc c =>
      match acc with
      | some n => if c.isDigit then some (n * 10 + (c.toNat - 48)) else none
      | none => none) (some 0)

/-- Integer parsing of a string: an optional minus sign followed by decimal
digits. -/
def pyParseInt (s : String) : Option Int :=
  match s.toList with
  | [] => none
  | '-' :: rest => (pyParseDigits rest).map (fun n => -(n : Int))
  | l => (pyParseDigits l).map (fun n => (n : Int))

/-- Python `float()` on a `JVal`, as far as the code exercises it: numbers
convert to themselves, integral numeric strings parse, booleans convert to 0/1,
and everything else raises (`none`).  Floats are modelled by integers, which
covers every statistic the server reports. -/
def jfloat? : JVal → Option Int
  | JVal.num n => some n
  | JVal.str s => pyParseInt s
  | JVal.boolean b => some (if b then 1 else 0)
  | _ => none

/-- `props.get(k) is not None`: the key is present and its value is not null. -/
def hasProp (props : List (String × JVal)) (k : String) : Bool :=
  match props.lookup k with
  | some v => v != JVal.null
  | none => false

/-- Reads a string-list valued property (`codelogic.owners`, `groupIds`, ...);
anything else yields the empty list. -/
def getStrListProp (props : List (String × JVal)) (k : String) : List String :=
  match props.lookup k with
  | some (JVal.strs xs) => xs
  | _ => []

/-- Boolean test for `needle in hay` on character lists (Python substring `in`). -/
def hasInfix (n : List Char) : List Char → Bool
  | [] => n.isEmpty
  | c :: t => n.isPrefixOf (c :: t) || hasInfix n t

/-- Python substring containment `needle in hay`. -/
def containsSub (hay needle : String) : Bool :=
  hasInfix needle.toList hay.toList

/-- Python `str.lower()` (ASCII case folding, which covers the identifiers the
handlers compare; implemented over the character list so that it reduces). -/
def strLower (s : String) : String :=
  String.mk (s.toList.map Char.toLower)

/-- Python `hay.endswith(suffix)`. -/
def strEndsWith (hay sfx : String) : Bool :=
  sfx.toList.isSuffixOf hay.toList

/-- One entity of the dependency graph, as produced by `extract_nodes`:
`id`, `identity`, `name`, `primaryLabel` and the open-ended property map. -/
structure Node where
  id : String
  identity : String
  name : String
  primaryLabel : String
  properties : List (String × JVal)
deriving DecidableEq, Repr

/-- A directed relationship of the dependency graph. -/
structure Rel where
  startId : String
  endId : String
  type : String
deriving DecidableEq, Repr

/-- The payload of `{data: {nodes: [...], relationships: [...]}}` returned by
the full-impact endpoint. -/
structure ImpactData where
  nodes : List Node
  relationships : List Rel
deriving DecidableEq, Repr

/-- `utils.find_node_by_id`: first node whose `id` field matches. -/
def find_node_by_id (nodes : List Node) (id : String) : Option Node :=
  match nodes with
  | [] => none
  | n :: rest => if n.id = id then some n else find_node_by_id rest id

/-- The property keys popped by `utils.strip_unused_properties`. -/
def removed_property_keys : List String :=
  ["agentIds", "sourceScanContextIds", "isScanRoot", "transitiveSourceNodeId",
   "dataSourceId", "scanContextId", "id", "shortName", "materializedViewId",
   "statistics.impactScore", "codelogic.quality.impactScore", "identity", "name"]

/-- `utils.strip_unused_properties` on a single node: pops each designated key
from the node's property map, leaving everything else alone. -/
def strip_node (n : Node) : Node :=
  { n with properties := n.properties.filter (fun kv => !(removed_property_keys.contains kv.1)) }

/-- `utils.strip_unused_properties`: strips the designated property keys from
every node of the impact payload; the relationships and all other fields pass
through unchanged. -/
def strip_unused_properties (d : ImpactData) : ImpactData :=
  { d with nodes := d.nodes.map strip_node }

/-- `utils.extract_nodes`: projects each raw node to the standard shape
(id, identity, name, primaryLabel, properties). -/
def extract_nodes (d : ImpactData) : List Node :=
  d.nodes.map (fun n =>
    { id := n.id, identity := n.identity, name := n.name,
      primaryLabel := n.primaryLabel, properties := n.properties })

/-- `utils.extract_relationships`: formatted relationship strings, skipping
relationships whose endpoints do not resolve. -/
def extract_relationships (d : ImpactData) : List String :=
  d.relationships.filterMap (fun rel =>
    match find_node_by_id d.nodes rel.startId, find_node_by_id d.nodes rel.endId with
    | some s, some e => some ("- " ++ s.identity ++ " (" ++ rel.type ++ ") -> " ++ e.identity)
    | _, _ => none)

/-- Wall-clock times are abstracted to naturals (`datetime.now()` snapshots). -/
abbrev Time := Nat

/-- Cache TTL settings (`utils.py` module constants; the documented defaults of
the corresponding environment options). -/
def TOKEN_CACHE_TTL : Nat := 3600

/-- Method-node search cache TTL default (seconds). -/
def METHOD_CACHE_TTL : Nat := 300

/-- Impact cache TTL default (seconds). -/
def IMPACT_CACHE_TTL : Nat := 300

/-- The process-wide mutable cache storage of `utils.py`: the singleton token
slot, the method-node table keyed by the `"viewId:shortName"` string, and the
impact table keyed by the node id value passed to `get_impact`. -/
structure CacheState where
  cachedToken : Option (String × Time)
  methodNodesCache : List (String × (List Node × Time))
  impactCache : List (JVal × (ImpactData × Time))
deriving DecidableEq, Repr

/-- The empty startup cache. -/
def emptyCache : CacheState := { cachedToken := none, methodNodesCache := [], impactCache := [] }

/-- Outcome of one HTTP exchange with the remote server, as seen through
`httpx`: a decoded success value, a timeout, a non-2xx status, or any other
exception. -/
inductive FetchResult (α : Type) where
  | ok (v : α)
  | timeout
  | httpError (status : Nat)
  | error
deriving DecidableEq, Repr

/-- A response that raises (`httpx.TimeoutException`, `raise_for_status`, or any
other exception) rather than delivering a value. -/
def IsErrResp {α : Type} : FetchResult α → Prop
  | FetchResult.ok _ => False
  | _ => True

instance {α : Type} (r : FetchResult α) : Decidable (IsErrResp r) := by
  cases r <;> simp [IsErrResp] <;> infer_instance

/-- Dictionary insertion observed through `lookup`: the caches are only ever
read via their keys, so `dict[k] = v` is modelled as a lookup-equivalent
association-list update. -/
def cacheInsert {κ ν : Type} [BEq κ] (m : List (κ × ν)) (k : κ) (v : ν) : List (κ × ν) :=
  (k, v) :: m.filter (fun kv => !(kv.1 == k))

/-- `utils.authenticate` when the cached token is absent or expired: perform the
credential exchange; on success cache `(token, now + TOKEN_CACHE_TTL)`; on any
failure re-raise (`none`) leaving the cache unchanged. -/
def authenticate_fresh (resp : FetchResult String) (now : Time) (st : CacheState) :
    Option String × CacheState :=
  match resp with
  | FetchResult.ok tok => (some tok, { st with cachedToken := some (tok, now + TOKEN_CACHE_TTL) })
  | _ => (none, st)

/-- `utils.authenticate`: return the cached token while `now < expiry`,
otherwise fetch a fresh one. -/
def authenticate (resp : FetchResult String) (now : Time) (st : CacheState) :
    Option String × CacheState :=
  match st.cachedToken with
  | some (tok, expiry) => if now < expiry then (some tok, st) else authenticate_fresh resp now st
  | none => authenticate_fresh resp now st

/-- `utils.get_mv_id`: authenticate, then the two chained lookups
(name to definition id, definition id to latest view id); each failing request
propagates (`none`). -/
def get_mv_id (authResp defResp viewResp : FetchResult String) (now : Time) (st : CacheState) :
    Option String × CacheState :=
  match authenticate authResp now st with
  | (none, st1) => (none, st1)
  | (some _, st1) =>
    match defResp with
    | FetchResult.ok _ =>
      match viewResp with
      | FetchResult.ok vid => (some vid, st1)
      | _ => (none, st1)
    | _ => (none, st1)

/-- The cache-miss branch of `utils.get_method_nodes`: the whole request body is
inside `try`, so an authentication failure, a timeout, an HTTP status error or
any other exception all return the empty list with the method-node table
untouched; a successful response is cached with expiry `now + METHOD_CACHE_TTL`. -/
def get_method_nodes_fetch (authResp : FetchResult String) (searchResp : FetchResult (List Node))
    (key : String) (now : Time) (st : CacheState) : List Node × CacheState :=
  match authenticate authResp now st with
  | (none, st1) => ([], st1)
  | (some _, st1) =>
    match searchResp with
    | FetchResult.ok nodes =>
      let newCache := cacheInsert st1.methodNodesCache key (nodes, now + METHOD_CACHE_TTL)
      (nodes, { st1 with methodNodesCache := newCache })
    | _ => ([], st1)

/-- `utils.get_method_nodes`: cache key `"materializedViewId:shortName"`; a
fresh entry is returned as-is, otherwise the search request is issued. -/
def get_method_nodes (authResp : FetchResult String) (searchResp : FetchResult (List Node))
    (mvId shortName : String) (now : Time) (st : CacheState) : List Node × CacheState :=
  let key := mvId ++ ":" ++ shortName
  match st.methodNodesCache.lookup key with
  | some (nodes, expiry) =>
    if now < expiry then (nodes, st)
    else get_method_nodes_fetch authResp searchResp key now st
  | none => get_method_nodes_fetch authResp searchResp key now st

/-- The cache-miss branch of `utils.get_impact`: authenticate (failures
propagate), fetch the full impact payload (failures propagate), strip the
unused properties, cache the stripped result with expiry
`now + IMPACT_CACHE_TTL` and return it. -/
def get_impact_fetch (authResp : FetchResult String) (impactResp : FetchResult ImpactData)
    (id : JVal) (now : Time) (st : CacheState) : Option ImpactData × CacheState :=
  match authenticate authResp now st with
  | (none, st1) => (none, st1)
  | (some _, st1) =>
    match impactResp with
    | FetchResult.ok raw =>
      let result := strip_unused_properties raw
      let newCache := cacheInsert st1.impactCache id (result, now + IMPACT_CACHE_TTL)
      (some result, { st1 with impactCache := newCache })
    | _ => (none, st1)

/-- `utils.get_impact`: keyed by the node id value; a fresh cache entry is
returned without any request, otherwise the full-impact request is issued. -/
def get_impact (authResp : FetchResult String) (impactResp : FetchResult ImpactData)
    (id : JVal) (now : Time) (st : CacheState) : Option ImpactData × CacheState :=
  match st.impactCache.lookup id with
  | some (impact, expiry) =>
    if now < expiry then (some impact, st)
    else get_impact_fetch authResp impactResp id now st
  | none => get_impact_fetch authResp impactResp id now st

/-! Method-impact handler (`handlers.handle_method_impact`). -/

/-- Python `class_name.split(".")` for the single-character separator, on
character lists (so that its segments are amenable to induction). -/
def splitDotAux : List Char → List Char → List (List Char)
  | [], acc => [acc.reverse]
  | c :: rest, acc =>
    if c = '.' then acc.reverse :: splitDotAux rest []
    else splitDotAux rest (c :: acc)

/-- `class_name.split(".")` as a list of character lists. -/
def splitDot (l : List Char) : List (List Char) := splitDotAux l []

/-- Whether a string contains a dot (`"." in class_name`). -/
def containsDot (s : String) : Bool := s.toList.contains '.'

/-- Lines 241-242 of `handlers.py`: a truthy class argument containing a dot is
replaced by its final dot-separated segment (`class_name.split(".")[-1]`). -/
def normalize_class_name (c : Option String) : Option String :=
  match c with
  | none => none
  | some s =>
    if s ≠ "" ∧ containsDot s then some (String.mk ((splitDot s.toList).getLastD []))
    else some s

/-- Lines 285-290 of `handlers.py`: the pipe-delimited class test applied to a
candidate search node's identity. -/
def pipe_class_match (c : String) (n : Node) : Bool :=
  containsSub n.identity ("|" ++ c ++ "|") || containsSub n.identity ("|" ++ c ++ ".class|")

/-- Lines 285-290 of `handlers.py`: with a truthy class name, pick the first
search node whose identity contains `|class|` or `|class.class|`, raising
`ValueError` if none does; without one, pick the first search node. -/
def select_search_node (nodes : List Node) (cls : Option String) : Except String Node :=
  match cls with
  | some c =>
    if c = "" then
      match nodes with
      | n :: _ => Except.ok n
      | [] => Except.error "IndexError: list index out of range"
    else
      match nodes.find? (fun n => pipe_class_match c n) with
      | some node => Except.ok node
      | none => Except.error ("No matching class found for " ++ c)
  | none =>
    match nodes with
    | n :: _ => Except.ok n
    | [] => Except.error "IndexError: list index out of range"

/-- The method entity type tags supported by the target search (line 311). -/
def method_entity_types : List String := ["JavaMethodEntity", "DotNetMethodEntity"]

/-- A node counts as a candidate when its `primaryLabel` is one of the method
entity types and its name contains the searched method name case-insensitively
(lines 314-317). -/
def is_method_candidate (method_name : String) (n : Node) : Bool :=
  method_entity_types.contains n.primaryLabel
    && containsSub (strLower n.name) (strLower method_name)

/-- Lines 314-317 of `handlers.py`: for each supported entity type in order,
collect the matching nodes in graph order. -/
def find_method_candidates (nodes : List Node) (method_name : String) : List Node :=
  (method_entity_types.map (fun t =>
    nodes.filter (fun n =>
      n.primaryLabel == t && containsSub (strLower n.name) (strLower method_name)))).flatten

/-- Whether a node carries the `statistics.cyclomaticComplexity` property
(line 327: `properties.get(...) is not None`). -/
def hasComplexityStat (n : Node) : Bool :=
  hasProp n.properties "statistics.cyclomaticComplexity"

/-- Lines 307-337 of `handlers.py`: target resolution.  Candidates are the
method-typed nodes whose name contains the method name; a truthy class name
narrows them to those whose identity contains it (case-insensitively) when that
filter is non-empty; the first candidate carrying a complexity statistic is
preferred, else the first candidate, else the node whose `id` property equals
the originally selected search node's `id` property. -/
def resolve_target (nodes : List Node) (method_name : String) (cls : Option String)
    (searchPropId : Option JVal) : Option Node :=
  let cands := find_method_candidates nodes method_name
  let method_nodes :=
    match cls with
    | some c =>
      if c ≠ "" then
        let filtered := cands.filter (fun n => containsSub (strLower n.identity) (strLower c))
        if filtered ≠ [] then filtered else cands
      else cands
    | none => cands
  match method_nodes.find? hasComplexityStat with
  | some t => some t
  | none =>
    match method_nodes with
    | t :: _ => some t
    | [] => nodes.find? (fun n => n.properties.lookup "id" == searchPropId)

/-- Whether a raw node's top-level `id` equals the search node's `id` property
value (line 366: `end_node['id'] == node['properties'].get('id')`). -/
def propIdMatches (searchPropId : Option JVal) (nodeId : String) : Bool :=
  match searchPropId with
  | some (JVal.str s) => nodeId == s
  | _ => false

/-- A dependent entry `(name, type, relationship)` (lines 360-372). -/
structure DependentInfo where
  name : String
  depType : String
  relationship : String
deriving DecidableEq, Repr

/-- Lines 360-372 of `handlers.py`: each relationship whose resolved end node
is the searched node contributes a dependent. -/
def find_dependents (d : ImpactData) (searchPropId : Option JVal) : List DependentInfo :=
  d.relationships.filterMap (fun rel =>
    match find_node_by_id d.nodes rel.startId, find_node_by_id d.nodes rel.endId with
    | some s, some e =>
      if propIdMatches searchPropId e.id then
        some { name := s.name, depType := s.primaryLabel, relationship := rel.type }
      else none
    | _, _ => none)

/-- Set insertion for `affected_applications` (a Python `set` observed only
through membership, cardinality and sorted iteration). -/
def addApp (s : List String) (x : String) : List String :=
  if x ∈ s then s else s ++ [x]

/-- Python dict lookup with last-wins insertion semantics, for
`app_id_to_name` built by comprehension. -/
def dictLookup (m : List (String × String)) (k : String) : Option String :=
  m.foldl (fun acc kv => if kv.1 == k then some kv.2 else acc) none

/-- Line 377: mapping from application node id to name. -/
def app_id_to_name (nodes : List Node) : List (String × String) :=
  (nodes.filter (fun n => n.primaryLabel == "Application")).map (fun a => (a.id, a.name))

/-- Lines 383-388 of `handlers.py`: one node's `groupIds` walk, adding the
names of the applications its group ids resolve to. -/
def group_ids_step (nodes : List Node) (acc : List String) (n : Node) : List String :=
  match n.properties.lookup "groupIds" with
  | some (JVal.strs gids) =>
    gids.foldl (fun acc2 g =>
      match dictLookup (app_id_to_name nodes) g with
      | some nm => addApp acc2 nm
      | none => acc2) acc
  | _ => acc

/-- Lines 375-388 of `handlers.py`: the affected-applications set seeded with
every `Application` node's name, plus the applications referenced through any
node's `groupIds` property. -/
def affected_applications_base (nodes : List Node) : List String :=
  nodes.foldl (group_ids_step nodes)
    ((nodes.filter (fun n => n.primaryLabel == "Application")).foldl
      (fun acc a => addApp acc a.name) [])

/-- Appending to `app_dependencies[app_name]`, creating the entry when absent
(lines 410-412). -/
def appendDep (m : List (String × List String)) (k v : String) : List (String × List String) :=
  if (m.lookup k).isSome then
    m.map (fun kv => if kv.1 == k then (kv.1, kv.2 ++ [v]) else kv)
  else m ++ [(k, [v])]

/-- Lines 399-402 of `handlers.py`: a `GROUPS` relationship whose resolved
start node is an `Application` adds that application's name. -/
def app_rel_step_groups (rawNodes : List Node) (rel : Rel)
    (acc : List String × List (String × List String)) :
    List String × List (String × List String) :=
  if rel.type == "GROUPS" then
    match find_node_by_id rawNodes rel.startId with
    | some s => if s.primaryLabel == "Application" then (addApp acc.1 s.name, acc.2) else acc
    | none => acc
  else acc

/-- Lines 404-412 of `handlers.py`: a `REFERENCES_GROUP` relationship between
two resolved `Application` nodes adds the start application (when its name is
truthy) and records the dependency edge. -/
def app_rel_step_refs (rawNodes : List Node) (rel : Rel)
    (acc : List String × List (String × List String)) :
    List String × List (String × List String) :=
  if rel.type == "REFERENCES_GROUP" then
    match find_node_by_id rawNodes rel.startId, find_node_by_id rawNodes rel.endId with
    | some s, some e =>
      if s.primaryLabel == "Application" && e.primaryLabel == "Application" then
        if s.name ≠ "" then (addApp acc.1 s.name, appendDep acc.2 s.name e.name)
        else acc
      else acc
    | _, _ => acc
  else acc

/-- One step of the relationship walk of lines 394-412: relationships of type
`GROUPS` or `REFERENCES_GROUP` resolve their endpoints and apply the two
branches above in order. -/
def app_rel_step (rawNodes : List Node) (acc : List String × List (String × List String))
    (rel : Rel) : List String × List (String × List String) :=
  if rel.type == "REFERENCES_GROUP" || rel.type == "GROUPS" then
    app_rel_step_refs rawNodes rel (app_rel_step_groups rawNodes rel acc)
  else acc

/-- Lines 374-412 of `handlers.py`: the affected-applications set and the
application-dependency mapping computed from one impact payload. -/
def application_analysis (d : ImpactData) : List String × List (String × List String) :=
  let nodes := extract_nodes d
  d.relationships.foldl (app_rel_step d.nodes) (affected_applications_base nodes, [])

/-- `sorted(affected_applications)`: the set's elements in lexicographic
order.  The set is represented by a duplicate-free list, on which the sorted
permutation is unique, so any sorting algorithm embeds Python's `sorted`. -/
def sorted_affected (l : List String) : List String :=
  List.insertionSort (fun a b => a ≤ b) l

/-- `app_dependencies.get(app, [])`. -/
def dep_lookup (deps : List (String × List String)) (k : String) : List String :=
  match deps.lookup k with
  | some v => v
  | none => []

/-- An explicit REST endpoint entry with HTTP verb and path. -/
structure ApiEndpointInfo where
  http_verb : String
  path : String
deriving DecidableEq, Repr

/-- A method carrying a REST-framework marker. -/
structure RestEndpointInfo where
  name : String
  annot : String
deriving DecidableEq, Repr

/-- A controller-typed node. -/
structure ApiControllerInfo where
  name : String
  ctrlType : String
deriving DecidableEq, Repr

/-- An endpoint-to-endpoint dependency edge. -/
structure EndpointDependency where
  source : String
  target : String
deriving DecidableEq, Repr

/-- The fixed REST marker vocabulary of the spec (§4.5). -/
def rest_marker_vocabulary : List String :=
  ["getmapping", "postmapping", "putmapping", "deletemapping", "requestmapping",
   "httpget", "httppost", "httpput", "httpdelete"]

/-- Modelled from the spec: `find_api_endpoints` is imported from `utils` by the
handler modules but its definition is not among the repository sources.  Per the
spec (§4.5) it identifies explicit endpoint-typed nodes carrying an HTTP verb
and path, controller-typed nodes whose name or type carries
controller/REST/API/web-service markers, method-level REST-framework markers
matched by substring against a fixed vocabulary, and endpoint-to-endpoint
relationships of type `INVOKES_ENDPOINT` or `REFERENCES_ENDPOINT`. -/
def find_api_endpoints (nodes : List Node) (rels : List Rel) :
    List ApiEndpointInfo × List RestEndpointInfo × List ApiControllerInfo ×
      List EndpointDependency :=
  let endpoint_nodes := (nodes.filter (fun n => containsSub (strLower n.primaryLabel) "endpoint")).map
    (fun n =>
      { http_verb := pyStr (pyGetD n.properties "httpVerb" (JVal.str "UNKNOWN")),
        path := pyStr (pyGetD n.properties "path" (JVal.str "UNKNOWN")) })
  let rest_eps := nodes.filterMap (fun n =>
    match n.properties.lookup "annotations" with
    | some (JVal.strs xs) =>
      match xs.find? (fun a0 => rest_marker_vocabulary.any (fun v => containsSub (strLower a0) v)) with
      | some a0 => some { name := n.name, annot := a0 }
      | none => none
    | _ => none)
  let controllers := (nodes.filter (fun (n : Node) =>
      ["controller", "rest", "api", "webservice"].any (fun mrk =>
        containsSub (strLower n.name) mrk || containsSub (strLower n.primaryLabel) mrk))).map
    (fun n => { name := n.name, ctrlType := n.primaryLabel })
  let deps := rels.filterMap (fun r =>
    if r.type == "INVOKES_ENDPOINT" || r.type == "REFERENCES_ENDPOINT" then
      match find_node_by_id nodes r.startId, find_node_by_id nodes r.endId with
      | some s, some e => some { source := s.name, target := e.name }
      | _, _ => none
    else none)
  (endpoint_nodes, rest_eps, controllers, deps)

/-- Lines 344-357 of `handlers.py`: code owners and reviewers from the target
node, falling back to the first `...ClassEntity` node whose name contains the
class name when either list is empty. -/
def resolve_owners (target? : Option Node) (nodes : List Node) (cls : Option String) :
    List String × List String :=
  let owners0 := match target? with
    | some t => getStrListProp t.properties "codelogic.owners"
    | none => []
  let reviewers0 := match target? with
    | some t => getStrListProp t.properties "codelogic.reviewers"
    | none => []
  if owners0 = [] ∨ reviewers0 = [] then
    let class_node : Option Node := match cls with
      | some c =>
        if c ≠ "" then
          nodes.find? (fun (n : Node) =>
            strEndsWith n.primaryLabel "ClassEntity" && containsSub (strLower n.name) (strLower c))
        else none
      | none => none
    match class_node with
    | some cn =>
      (if owners0 = [] then getStrListProp cn.properties "codelogic.owners" else owners0,
       if reviewers0 = [] then getStrListProp cn.properties "codelogic.reviewers" else reviewers0)
    | none => (owners0, reviewers0)
  else (owners0, reviewers0)

/-- The complexity-exceeds-threshold warning line of the Risk Assessment
section (line 501). -/
def warn_complexity_line (c : JVal) : String :=
  "⚠️ **Warning**: Cyclomatic complexity of " ++ pyStr c ++ " exceeds threshold of 10\n\n"

/-- Lines 499-503 of `handlers.py`: the complexity risk line of the Risk
Assessment section.  A value that is `'N/A'` or null takes the within-limits
branch; any other value is converted by `float()` — which raises (`none`) on
non-numeric values — and compared against the fixed threshold 10. -/
def complexity_risk_text (c : JVal) : Option String :=
  if c = JVal.str "N/A" ∨ c = JVal.null then
    some "✅ Complexity is within acceptable limits\n\n"
  else
    match jfloat? c with
    | some f =>
      if f > 10 then some (warn_complexity_line c)
      else some "✅ Complexity is within acceptable limits\n\n"
    | none => none

/-- Lines 430-433 of `handlers.py`: the complexity cell of the node metrics
table, with the high-complexity marker; `float()` of a non-numeric value
raises (`none`). -/
def node_complexity_cell (c : JVal) : Option String :=
  if c = JVal.str "N/A" ∨ c = JVal.null then some (pyStr c)
  else
    match jfloat? c with
    | some f => some (if f > 10 then "**" ++ pyStr c ++ "** ⚠️" else pyStr c)
    | none => none

/-- One row of the Detailed Node Metrics table (lines 421-435). -/
def nodes_table_row (n : Node) : Option String :=
  let comp := pyGetD n.properties "statistics.cyclomaticComplexity" (JVal.str "N/A")
  (node_complexity_cell comp).map (fun cstr =>
    "| " ++ n.name ++ " | " ++ n.primaryLabel ++ " | " ++ cstr ++ " | " ++
    pyStr (pyGetD n.properties "statistics.instructionCount" (JVal.str "N/A")) ++ " | " ++
    pyStr (pyGetD n.properties "statistics.methodCount" (JVal.str "N/A")) ++ " | " ++
    pyStr (pyGetD n.properties "statistics.outgoingExternalReferenceTotal" (JVal.str "N/A")) ++ " | " ++
    pyStr (pyGetD n.properties "statistics.incomingExternalReferenceTotal" (JVal.str "N/A")) ++ " |\n")

/-- The Detailed Node Metrics table (lines 418-435). -/
def nodes_table (nodes : List Node) : Option String :=
  (nodes.mapM nodes_table_row).map (fun rows =>
    "| Name | Type | Complexity | Instruction Count | Method Count | Outgoing Refs | Incoming Refs |\n" ++
    "|------|------|------------|-------------------|-------------|---------------|---------------|\n" ++
    String.join rows)

/-- One resolved relationship row for the Relationship Map (lines 440-451). -/
structure RelRow where
  relType : String
  source : String
  source_type : String
  target : String
  target_type : String
deriving DecidableEq, Repr

/-- Lines 440-451 of `handlers.py`: relationships whose endpoints resolve. -/
def relationship_rows (d : ImpactData) : List RelRow :=
  d.relationships.filterMap (fun rel =>
    match find_node_by_id d.nodes rel.startId, find_node_by_id d.nodes rel.endId with
    | some s, some e =>
      some { relType := rel.type, source := s.name, source_type := s.primaryLabel,
             target := e.name, target_type := e.primaryLabel }
    | _, _ => none)

/-- Lines 581-594 of `handlers.py`: the Relationship Map table, bolding rows
that involve both the method name and the class name. -/
def relationship_table (m : String) (cls : Option String) (rows : List RelRow) : String :=
  "| Relationship Type | Source | Source Type | Target | Target Type |\n" ++
  "|------------------|--------|-------------|--------|------------|\n" ++
  String.join (rows.map (fun row =>
    let hl :=
      if containsSub (strLower row.source) (strLower m) || containsSub (strLower row.target) (strLower m) then
        match cls with
        | some c =>
          if c ≠ "" && (containsSub (strLower row.source) (strLower c) || containsSub (strLower row.target) (strLower c))
          then "**" else ""
        | none => ""
      else ""
    "| " ++ hl ++ row.relType ++ hl ++ " | " ++ hl ++ row.source ++ hl ++ " | " ++
    row.source_type ++ " | " ++ hl ++ row.target ++ hl ++ " | " ++ row.target_type ++ " |\n"))

/-- Lines 505-516 of `handlers.py`: the cross-application part of the Risk
Assessment section; the applications are listed via `sorted(...)`. -/
def cross_app_section (affected : List String) (deps : List (String × List String)) : String :=
  if affected.length > 1 then
    "⚠️ **Cross-Application Dependency**: This method is used by " ++
    toString affected.length ++ " applications:\n" ++
    String.join ((sorted_affected affected).map (fun app =>
      let ds := dep_lookup deps app
      if ds ≠ [] then
        "- `" ++ app ++ "` (depends on: " ++
        String.intercalate ", " (ds.map (fun d0 => "`" ++ d0 ++ "`")) ++ ")\n"
      else "- `" ++ app ++ "`\n")) ++
    "\nChanges to this method may cause widespread impacts across multiple applications. Consider careful testing across all affected systems.\n"
  else "✅ Method is used within a single application context\n"

/-- Lines 518-553 of `handlers.py`: the REST API part of the Risk Assessment
section. -/
def rest_risk_section (restEps : List RestEndpointInfo) (controllers : List ApiControllerInfo)
    (endpointNodes : List ApiEndpointInfo) (endpointDeps : List EndpointDependency) : String :=
  if restEps ≠ [] ∨ controllers ≠ [] ∨ endpointNodes ≠ [] then
    "\n### REST API Risk Assessment\n" ++
    "⚠️ **API Impact Alert**: This method affects REST endpoints or API controllers\n" ++
    (if restEps ≠ [] then
      "\n#### REST Methods with Annotations\n" ++
      String.join (restEps.map (fun e => "- `" ++ e.name ++ "` (" ++ e.annot ++ ")\n"))
     else "") ++
    (if controllers ≠ [] then
      "\n#### Affected API Controllers\n" ++
      String.join (controllers.map (fun c0 => "- `" ++ c0.name ++ "` (" ++ c0.ctrlType ++ ")\n"))
     else "") ++
    (if endpointDeps ≠ [] then
      "\n### REST API Dependencies\n⚠️ **Chained API Risk**: Changes may affect multiple interconnected endpoints\n\n" ++
      String.join (endpointDeps.map (fun dep => "- `" ++ dep.source ++ "` depends on `" ++ dep.target ++ "`\n"))
     else "") ++
    "\n### API Change Risk Factors\n- Changes may affect external consumers and services\n- Consider versioning strategy for breaking changes\n- API contract changes require thorough documentation\n- Update API tests and client libraries as needed\n- Consider backward compatibility requirements\n- **Chained API calls**: Changes may have cascading effects across multiple endpoints\n- **Cross-application impact**: API changes could affect dependent systems\n"
  else
    "\n### REST API Risk Assessment\n✅ No direct impact on REST endpoints or API controllers detected\n"

/-- Lines 556-564 of `handlers.py`: the Code Ownership section. -/
def ownership_section (owners reviewers : List String) : String :=
  if owners ≠ [] ∨ reviewers ≠ [] then
    "\n### Code Ownership\n" ++
    (if owners ≠ [] then
      "👤 **Code Owners**: Changes to this code should be reviewed by: " ++
      String.intercalate ", " owners ++ "\n"
     else "") ++
    (if reviewers ≠ [] then
      "👁️ **Preferred Reviewers**: Consider getting reviews from: " ++
      String.intercalate ", " reviewers ++ "\n"
     else "") ++
    (if owners ≠ [] then
      "\nConsult with the code owners before making significant changes to ensure alignment with original design intent.\n"
     else "")
  else ""

/-- Lines 596-606 of `handlers.py`: the Application Dependency Graph section. -/
def app_dependency_graph_section (affected : List String)
    (deps : List (String × List String)) : String :=
  if affected.length > 1 then
    "\n## Application Dependency Graph\n```\n" ++
    String.join ((sorted_affected affected).map (fun app =>
      let ds := dep_lookup deps app
      if ds ≠ [] then app ++ " → " ++ String.intercalate " → " ds ++ "\n"
      else app ++ " (no dependencies)\n")) ++
    "```\n"
  else ""

/-- The literal heading the report starts with (line 465). -/
def report_heading (m : String) : String :=
  "# Impact Analysis for Method: `" ++ m ++ "`"

/-- The class display of the Summary section (`class_name or 'N/A'`). -/
def cls_display (cls : Option String) : String :=
  match cls with
  | some c => if c ≠ "" then c else "N/A"
  | none => "N/A"

/-- The resolved target node of one report (lines 307-337 applied to the
extracted nodes and the search node's `id` property). -/
def report_target (m : String) (cls : Option String) (searchNode : Node) (d : ImpactData) :
    Option Node :=
  resolve_target (extract_nodes d) m cls (searchNode.properties.lookup "id")

/-- The resolved target's complexity value (line 340). -/
def report_complexity (m : String) (cls : Option String) (searchNode : Node) (d : ImpactData) :
    JVal :=
  match report_target m cls searchNode d with
  | some t => pyGetD t.properties "statistics.cyclomaticComplexity" (JVal.str "N/A")
  | none => JVal.str "N/A"

/-- The resolved target's instruction count (line 341). -/
def report_instruction_count (m : String) (cls : Option String) (searchNode : Node)
    (d : ImpactData) : JVal :=
  match report_target m cls searchNode d with
  | some t => pyGetD t.properties "statistics.instructionCount" (JVal.str "N/A")
  | none => JVal.str "N/A"

/-- Everything of the report strictly between the heading and the complexity
risk line (lines 466-497). -/
def report_summary_block (m : String) (cls : Option String) (owners reviewers : List String)
    (complexity instruction_count : JVal) (affected : List String)
    (endpointNodes : List ApiEndpointInfo) : String :=
  "\n\n## Guidelines for AI\n- Pay special attention to methods with Cyclomatic Complexity over 10 as they represent higher risk\n- Consider the cross-application dependencies when making changes\n- Prioritize testing for components that directly depend on this method\n- Suggest refactoring when complexity metrics indicate poor maintainability\n- Consider the full relationship map to understand cascading impacts\n- Highlight REST API endpoints and external dependencies that may be affected by changes\n\n## Summary\n- **Method**: `" ++
  m ++ "`\n- **Class**: `" ++ cls_display cls ++ "`\n" ++
  (if owners ≠ [] then "- **Code Owners**: " ++ String.intercalate ", " owners ++ "\n" else "") ++
  (if reviewers ≠ [] then "- **Code Reviewers**: " ++ String.intercalate ", " reviewers ++ "\n" else "") ++
  "- **Complexity**: " ++ pyStr complexity ++ "\n- **Instruction Count**: " ++
  pyStr instruction_count ++ "\n- **Affected Applications**: " ++ toString affected.length ++ "\n" ++
  (if endpointNodes ≠ [] then
    "\n### Affected REST Endpoints\n" ++
    String.join (endpointNodes.map (fun e => "- `" ++ e.http_verb ++ " " ++ e.path ++ "`\n"))
   else "") ++
  "\n## Risk Assessment\n"

/-- Everything of the report before the complexity risk line (lines 465-497):
the heading followed by the summary block. -/
def report_before_risk (m : String) (cls : Option String) (owners reviewers : List String)
    (complexity instruction_count : JVal) (affected : List String)
    (endpointNodes : List ApiEndpointInfo) : String :=
  report_heading m ++
    report_summary_block m cls owners reviewers complexity instruction_count affected endpointNodes

/-- Everything of the report after the complexity risk line (lines 505-606). -/
def report_after_risk (m : String) (cls : Option String) (owners reviewers : List String)
    (affected : List String) (deps : List (String × List String))
    (restEps : List RestEndpointInfo) (controllers : List ApiControllerInfo)
    (endpointNodes : List ApiEndpointInfo) (endpointDeps : List EndpointDependency)
    (dependents : List DependentInfo) (ntable : String) (d : ImpactData) : String :=
  cross_app_section affected deps ++
  rest_risk_section restEps controllers endpointNodes endpointDeps ++
  ownership_section owners reviewers ++
  "\n## Method Impact\nThis analysis focuses on systems that depend on `" ++ m ++
  "`. Modifying this method could affect these dependents:\n\n" ++
  (if dependents ≠ [] then
    String.join (dependents.map (fun dep =>
      "- `" ++ dep.name ++ "` (" ++ dep.depType ++ ") via `" ++ dep.relationship ++ "`\n"))
   else "No components directly depend on this method. The change appears to be isolated.\n") ++
  "\n## Detailed Node Metrics\n" ++ ntable ++ "\n" ++
  "\n## Relationship Map\n" ++ relationship_table m cls (relationship_rows d) ++
  app_dependency_graph_section affected deps

/-- Lines 303-606 of `handlers.py`: the full successful impact report, built
from the method name, the (already truncated) class name, the selected search
node and the stripped impact payload.  `none` models a `float()` conversion
error raised while formatting a non-numeric complexity value. -/
def report_owners (m : String) (cls : Option String) (searchNode : Node) (d : ImpactData) :
    List String × List String :=
  resolve_owners (report_target m cls searchNode d) (extract_nodes d) cls

/-- The part of the report before the complexity risk line, with the
classified facts of this call filled in. -/
def report_front (m : String) (cls : Option String) (searchNode : Node) (d : ImpactData) :
    String :=
  report_before_risk m cls (report_owners m cls searchNode d).1
    (report_owners m cls searchNode d).2 (report_complexity m cls searchNode d)
    (report_instruction_count m cls searchNode d) (application_analysis d).1
    (find_api_endpoints (extract_nodes d) d.relationships).1

/-- The part of the report after the complexity risk line, with the classified
facts of this call filled in. -/
def report_suffix (m : String) (cls : Option String) (searchNode : Node) (d : ImpactData)
    (ntable : String) : String :=
  report_after_risk m cls (report_owners m cls searchNode d).1
    (report_owners m cls searchNode d).2 (application_analysis d).1 (application_analysis d).2
    (find_api_endpoints (extract_nodes d) d.relationships).2.1
    (find_api_endpoints (extract_nodes d) d.relationships).2.2.1
    (find_api_endpoints (extract_nodes d) d.relationships).1
    (find_api_endpoints (extract_nodes d) d.relationships).2.2.2
    (find_dependents d (searchNode.properties.lookup "id")) ntable d

def method_impact_report (m : String) (cls : Option String) (searchNode : Node)
    (d : ImpactData) : Option String :=
  match nodes_table (extract_nodes d),
      complexity_risk_text (report_complexity m cls searchNode d) with
  | some ntable, some riskText =>
    some (report_front m cls searchNode d ++ riskText ++ report_suffix m cls searchNode d ntable)
  | _, _ => none

/-- Outcome of one tool call: a returned text block, or a raised Python
exception carrying its message (caught further up by the dispatcher). -/
inductive ToolResult where
  | text (s : String)
  | raised (msg : String)
deriving DecidableEq, Repr

/-- The `Unable to Analyze` report rendered when the node search comes back
empty (lines 260-283 of `handlers.py`). -/
def unable_to_analyze_report (host m : String) : String :=
  "# Unable to Analyze Method: `" ++ m ++ "`\n\n## Error\nThe request to retrieve method information from the CodeLogic server timed out or failed (504 Gateway Timeout).\n\n## Possible causes:\n1. The CodeLogic server is under heavy load\n2. Network connectivity issues between the MCP server and CodeLogic\n3. The method name provided (`" ++
  m ++ "`) doesn\x27t exist in the codebase\n\n## Recommendations:\n1. Try again in a few minutes\n2. Verify the method name is correct\n3. Check your connection to the CodeLogic server at: " ++
  host ++ "\n4. If the problem persists, contact your CodeLogic administrator\n"

/-- The arguments mapping of the `codelogic-method-impact` tool; `className`
models the `"class"` key. -/
structure MethodImpactArgs where
  method : Option String
  className : Option String
deriving DecidableEq, Repr

/-- Lines 292-613 of `handlers.py`: once a search node has been selected, fetch
its impact by the node's `id` property (a missing key raises), parse it and
render the report; a `float()` failure while rendering raises. -/
def method_impact_proceed (authResp : FetchResult String)
    (impactFor : JVal → FetchResult ImpactData) (m : String) (cls : Option String)
    (node : Node) (now : Time) (st : CacheState) : ToolResult × CacheState :=
  match node.properties.lookup "id" with
  | none => (ToolResult.raised "KeyError: id", st)
  | some idv =>
    match get_impact authResp (impactFor idv) idv now st with
    | (none, st1) => (ToolResult.raised "impact retrieval failed", st1)
    | (some impact_data, st1) =>
      match method_impact_report m cls node impact_data with
      | some r => (ToolResult.text r, st1)
      | none => (ToolResult.raised "could not convert string to float", st1)

/-- Lines 244-613 of `handlers.py`: the body of `handle_method_impact` after
the class-name truncation, with the class name already normalized. -/
def handle_method_impact_core (host : String) (authResp defResp viewResp : FetchResult String)
    (searchResp : FetchResult (List Node)) (impactFor : JVal → FetchResult ImpactData)
    (method? cls : Option String) (now : Time) (st : CacheState) : ToolResult × CacheState :=
  match method? with
  | none => (ToolResult.raised "Method must be provided", st)
  | some m =>
    if m = "" then (ToolResult.raised "Method must be provided", st)
    else
      match get_mv_id authResp defResp viewResp now st with
      | (none, st1) => (ToolResult.raised "materialized view lookup failed", st1)
      | (some mv_id, st1) =>
        match get_method_nodes authResp searchResp mv_id m now st1 with
        | (nodes, st2) =>
          if nodes = [] then (ToolResult.text (unable_to_analyze_report host m), st2)
          else
            match select_search_node nodes cls with
            | Except.error msg => (ToolResult.raised msg, st2)
            | Except.ok node => method_impact_proceed authResp impactFor m cls node now st2

/-- `handlers.handle_method_impact`: argument validation, class-name
truncation, then the core body. -/
def handle_method_impact (host : String) (authResp defResp viewResp : FetchResult String)
    (searchResp : FetchResult (List Node)) (impactFor : JVal → FetchResult ImpactData)
    (args : Option MethodImpactArgs) (now : Time) (st : CacheState) : ToolResult × CacheState :=
  match args with
  | none => (ToolResult.raised "Missing arguments", st)
  | some a =>
    handle_method_impact_core host authResp defResp viewResp searchResp impactFor
      a.method (normalize_class_name a.className) now st

/-! Database-impact handler (`handlers.handle_database_impact`,
`handlers/database_impact.py`). -/

/-- One search result of `search_database_entity`: a dictionary read through
`.get("id")`, `.get("name")` and `.get("schema", "Unknown")`. -/
structure DbEntity where
  id : Option String
  name : Option String
  schema : Option String
deriving DecidableEq, Repr

/-- The Python value passed to `get_impact` for an entity (`entity.get("id")`,
which is null when the key is absent). -/
def pyEntityId (e : DbEntity) : JVal :=
  match e.id with
  | some s => JVal.str s
  | none => JVal.null

/-- The entity name rendered into the report (`str` of a possibly-missing
value). -/
def pyEntityName (e : DbEntity) : String :=
  match e.name with
  | some s => s
  | none => "None"

/-- The arguments mapping of the `codelogic-database-impact` tool. -/
structure DatabaseImpactArgs where
  entity_type : Option String
  name : Option String
  table_or_view : Option String
deriving DecidableEq, Repr

/-- Modelled from the spec: `process_database_entity_impact` is imported from
`utils` but its definition is not among the repository sources.  Per the spec,
the database-impact tool produces, for each matched entity whose impact
retrieval succeeded, a per-entity markdown impact summary that enters the
combined report. -/
def process_database_entity_impact (impact_data : ImpactData)
    (entity_type entity_name entity_schema : String) : String :=
  "## Impact Analysis for " ++ entity_type ++ ": `" ++ entity_name ++ "` (Schema: `" ++
  entity_schema ++ "`)\n- Nodes in impact graph: " ++ toString impact_data.nodes.length ++
  "\n- Relationships in impact graph: " ++ toString impact_data.relationships.length ++ "\n"

/-- Modelled from the spec: `generate_combined_database_report` is imported
from `utils` but its definition is not among the repository sources.  Per the
spec it combines the per-entity impact summaries into one markdown report
across up to 5 matching entities. -/
def generate_combined_database_report (entity_type name : String) (table_or_view : Option String)
    (search_results : List DbEntity) (all_impacts : List String) : String :=
  "# Database Impact Analysis: " ++ entity_type ++ " `" ++ name ++ "`" ++
  (match table_or_view with
   | some t => if t ≠ "" then " in `" ++ t ++ "`" else ""
   | none => "") ++
  "\n\nFound " ++ toString search_results.length ++ " matching " ++ entity_type ++ "(s)\n\n" ++
  String.join (all_impacts.map (fun s => s ++ "\n"))

/-- The no-results report of the database handler (lines 650-658). -/
def no_entities_report (et nm : String) (tov : Option String) : String :=
  let tvt := match tov with
    | some t => if t ≠ "" then " in " ++ t else ""
    | none => ""
  "# No " ++ et ++ "s found matching \x27" ++ nm ++ "\x27" ++ tvt ++
  "\n\nNo database " ++ et ++ "s were found matching the name \x27" ++ nm ++ "\x27" ++ tvt ++ "."

/-- Lines 660-686 of `handlers.py`: the per-entity loop.  Each entity's impact
is fetched through `get_impact` and summarised; any exception for one entity is
logged and that entity skipped, the loop continuing with the next. -/
def db_impact_loop (authResp : FetchResult String) (impactFor : JVal → FetchResult ImpactData)
    (entity_type : String) (entities : List DbEntity) (now : Time) (st : CacheState) :
    List String × CacheState :=
  match entities with
  | [] => ([], st)
  | e :: rest =>
    match get_impact authResp (impactFor (pyEntityId e)) (pyEntityId e) now st with
    | (some impact_data, st1) =>
      let r := db_impact_loop authResp impactFor entity_type rest now st1
      (process_database_entity_impact impact_data entity_type (pyEntityName e)
        (e.schema.getD "Unknown") :: r.1, r.2)
    | (none, st1) => db_impact_loop authResp impactFor entity_type rest now st1

/-- `handlers.handle_database_impact`: argument validation, entity search (the
fail-soft search result list is supplied by the environment), the per-entity
loop over the first five results, and the combined report. -/
def handle_database_impact (authResp : FetchResult String) (dbSearch : List DbEntity)
    (impactFor : JVal → FetchResult ImpactData) (args : Option DatabaseImpactArgs)
    (now : Time) (st : CacheState) : ToolResult × CacheState :=
  match args with
  | none => (ToolResult.raised "Missing arguments", st)
  | some a =>
    match a.entity_type, a.name with
    | some et, some nm =>
      if et = "" ∨ nm = "" then (ToolResult.raised "Entity type and name must be provided", st)
      else if ¬ (et ∈ ["column", "table", "view"]) then
        (ToolResult.raised ("Invalid entity type: " ++ et), st)
      else if et = "column" ∧ (a.table_or_view = none ∨ a.table_or_view = some "") then
        (ToolResult.raised "Table or view name must be provided for column searches", st)
      else
        match dbSearch with
        | [] => (ToolResult.text (no_entities_report et nm a.table_or_view), st)
        | _ :: _ =>
          (ToolResult.text
            (generate_combined_database_report et nm a.table_or_view dbSearch
              (db_impact_loop authResp impactFor et (dbSearch.take 5) now st).1),
           (db_impact_loop authResp impactFor et (dbSearch.take 5) now st).2)
    | _, _ => (ToolResult.raised "Entity type and name must be provided", st)

/-- The summaries the per-entity loop produces when every entity's cache slot
is cold, the token is fresh and the responses come from `F`: the successful
entities' summaries in order, the failed ones skipped. -/
def batch_summaries (F : JVal → FetchResult ImpactData) (entity_type : String)
    (entities : List DbEntity) : List String :=
  entities.filterMap (fun e =>
    match F (pyEntityId e) with
    | FetchResult.ok raw =>
      some (process_database_entity_impact (strip_unused_properties raw) entity_type
        (pyEntityName e) (e.schema.getD "Unknown"))
    | _ => none)

/-- The token slot holds no entry valid at `now` (absent, or expired). -/
def TokenStale (st : CacheState) (now : Time) : Prop :=
  ∀ t e, st.cachedToken = some (t, e) → e ≤ now

/-- The method-node table holds no entry valid at `now` under `key`. -/
def MethodStale (st : CacheState) (key : String) (now : Time) : Prop :=
  ∀ ns e, st.methodNodesCache.lookup key = some (ns, e) → e ≤ now

/-- The impact table holds no entry valid at `now` under `id`. -/
def ImpactStale (st : CacheState) (id : JVal) (now : Time) : Prop :=
  ∀ d e, st.impactCache.lookup id = some (d, e) → e ≤ now

/-! Concrete fixtures used by witnesses and counterexamples. -/

/-- A small method node fixture. -/
def fixNode : Node :=
  { id := "n1", identity := "app|A|foo", name := "foo", primaryLabel := "JavaMethodEntity",
    properties := [("id", JVal.str "n1"), ("statistics.cyclomaticComplexity", JVal.num 12)] }

/-- A small impact payload fixture. -/
def fixImpact : ImpactData := { nodes := [fixNode], relationships := [] }

/-- A cache state whose three tables all hold entries expiring at time 100. -/
def stFresh : CacheState :=
  { cachedToken := some ("tok0", 100),
    methodNodesCache := [("mv:foo", ([fixNode], 100))],
    impactCache := [(JVal.str "n1", (fixImpact, 100))] }

/-- `stFresh` after a successful re-authentication at time 200. -/
def authSt2 : CacheState :=
  { stFresh with cachedToken := some ("t2", 200 + TOKEN_CACHE_TTL) }

/-- The empty cache after a successful authentication at time 0. -/
def stTok : CacheState :=
  { cachedToken := some ("tok", TOKEN_CACHE_TTL), methodNodesCache := [], impactCache := [] }

/-- A raw node carrying both stripped and kept property keys. -/
def fixRawNode : Node :=
  { id := "n1", identity := "app|A|foo", name := "foo", primaryLabel := "JavaMethodEntity",
    properties := [("agentIds", JVal.strs ["a1"]), ("id", JVal.str "n1"),
      ("statistics.cyclomaticComplexity", JVal.num 12),
      ("statistics.instructionCount", JVal.num 3)] }

/-- A raw impact payload carrying both stripped and kept property keys. -/
def fixRaw : ImpactData :=
  { nodes := [fixRawNode],
    relationships := [{ startId := "n2", endId := "n1", type := "CALLS" }] }

/-- A method node matching method `foo` and class `Bar` in its identity, with
no complexity statistic. -/
def cexNonCarrier : Node :=
  { id := "1", identity := "app|pkg|Bar|foo", name := "foo",
    primaryLabel := "JavaMethodEntity", properties := [] }

/-- A method node matching method `foo`, not matching class `Bar`, carrying a
complexity statistic. -/
def cexCarrier : Node :=
  { id := "2", identity := "app|pkg|Other|foo", name := "foo",
    primaryLabel := "JavaMethodEntity",
    properties := [("statistics.cyclomaticComplexity", JVal.num 12)] }

/-- The two-candidate graph of the target-resolution counterexample. -/
def c1Nodes : List Node := [cexNonCarrier, cexCarrier]

/-- A search node whose identity contains the class name `Foo` as a plain
substring but not in the pipe-delimited forms. -/
def cexNode6 : Node :=
  { id := "9", identity := "com.example.Foo.bar", name := "bar",
    primaryLabel := "JavaMethodEntity", properties := [("id", JVal.str "9")] }

/-- A search node whose identity contains the pipe-delimited form `|Foo|`. -/
def fixNode6Match : Node :=
  { id := "8", identity := "app|Foo|bar", name := "bar",
    primaryLabel := "JavaMethodEntity", properties := [("id", JVal.str "8")] }

/-- The cache state reached after view resolution and a successful node search
for method `bar` (key `v:bar`) at time 0 returning `ns`. -/
def st6 (ns : List Node) : CacheState :=
  { cachedToken := some ("tok", TOKEN_CACHE_TTL),
    methodNodesCache := [("v:bar", (ns, METHOD_CACHE_TTL))],
    impactCache := [] }

/-- An `Application` node fixture. -/
def appA : Node :=
  { id := "a", identity := "A", name := "AppA", primaryLabel := "Application", properties := [] }

/-- A second `Application` node fixture. -/
def appB : Node :=
  { id := "b", identity := "B", name := "AppB", primaryLabel := "Application", properties := [] }

/-- The `REFERENCES_GROUP` edge from `appA` to `appB`. -/
def relAB : Rel := { startId := "a", endId := "b", type := "REFERENCES_GROUP" }

/-- A graph of two applications joined by a `REFERENCES_GROUP` edge. -/
def c7Data : ImpactData := { nodes := [appA, appB], relationships := [relAB] }

/-- The `addPrefix` method node of the CompanyInfo scenario, complexity 12. -/
def c8Target : Node :=
  { id := "t1", identity := "app|CompanyInfo|addPrefix", name := "addPrefix",
    primaryLabel := "JavaMethodEntity",
    properties := [("statistics.cyclomaticComplexity", JVal.num 12)] }

/-- A dependent method node calling `addPrefix`. -/
def c8Caller : Node :=
  { id := "t2", identity := "app|Other|callerM", name := "callerM",
    primaryLabel := "JavaMethodEntity", properties := [] }

/-- The search node selected for the CompanyInfo scenario (its `id` property
points at `c8Target`). -/
def c8Search : Node :=
  { id := "s1", identity := "app|CompanyInfo|addPrefix", name := "addPrefix",
    primaryLabel := "JavaMethodEntity", properties := [("id", JVal.str "t1")] }

/-- The impact payload of the CompanyInfo scenario: the target, one dependent,
and a `CALLS` relationship into the target. -/
def c8Data : ImpactData :=
  { nodes := [c8Target, c8Caller],
    relationships := [{ startId := "t2", endId := "t1", type := "CALLS" }] }

/-- A database table entity whose impact fetch will fail. -/
def ent1 : DbEntity := { id := some "d1", name := some "tbl1", schema := some "public" }

/-- A database table entity whose impact fetch succeeds. -/
def ent2 : DbEntity := { id := some "d2", name := some "tbl2", schema := none }

/-- An impact oracle that fails with HTTP 500 for entity `d1` and answers every
other id with the raw fixture payload. -/
def F5 : JVal → FetchResult ImpactData := fun j =>
  if j == JVal.str "d1" then FetchResult.httpError 500 else FetchResult.ok fixRaw

/-! Helper lemmas about the caches. -/

theorem lookup_cacheInsert_self {κ ν : Type} [BEq κ] [LawfulBEq κ]
    (m : List (κ × ν)) (k : κ) (v : ν) : (cacheInsert m k v).lookup k = some v := by
  simp [cacheInsert, List.lookup]

theorem lookup_filter_ne {κ ν : Type} [BEq κ] [LawfulBEq κ]
    (m : List (κ × ν)) {k k' : κ} (h : k' ≠ k) :
    (m.filter (fun kv => !(kv.1 == k))).lookup k' = m.lookup k' := by
  induction m with
  | nil => rfl
  | cons kv t ih =>
    by_cases hk : (kv.1 == k) = true
    · have hkk : kv.1 = k := eq_of_beq hk
      have hne : (k' == kv.1) = false := by
        apply beq_eq_false_iff_ne.mpr
        rw [hkk]
        exact h
      simp [List.filter_cons, hk, List.lookup, hne, ih]
    · have hk2 : (kv.1 == k) = false := by
        cases hb : (kv.1 == k) with
        | true => exact absurd hb hk
        | false => rfl
      cases hbeq : (k' == kv.1) <;>
        simp [List.filter_cons, hk2, List.lookup, hbeq, ih]

theorem lookup_cacheInsert_ne {κ ν : Type} [BEq κ] [LawfulBEq κ]
    (m : List (κ × ν)) {k k' : κ} (v : ν) (h : k' ≠ k) :
    (cacheInsert m k v).lookup k' = m.lookup k' := by
  have hne : (k' == k) = false := beq_eq_false_iff_ne.mpr h
  simp [cacheInsert, List.lookup, hne, lookup_filter_ne m h]

theorem authenticate_hit {st : CacheState} {now : Time} {tok : String} {e : Time}
    (r : FetchResult String) (h : st.cachedToken = some (tok, e)) (hlt : now < e) :
    authenticate r now st = (some tok, st) := by
  simp [authenticate, h, hlt]

theorem authenticate_stale {st : CacheState} {now : Time} (r : FetchResult String)
    (h : TokenStale st now) :
    authenticate r now st = authenticate_fresh r now st := by
  unfold authenticate
  cases hc : st.cachedToken with
  | none => rfl
  | some p =>
    obtain ⟨t, e⟩ := p
    have hle := h t e hc
    simp [Nat.not_lt.mpr hle]

theorem authenticate_fail {st : CacheState} {now : Time} {a : FetchResult String}
    (ha : IsErrResp a) (hstale : TokenStale st now) :
    authenticate a now st = (none, st) := by
  rw [authenticate_stale a hstale]
  cases a with
  | ok v => exact absurd ha (by simp [IsErrResp])
  | timeout => rfl
  | httpError s => rfl
  | error => rfl

theorem authenticate_methodCache (r : FetchResult String) (now : Time) (st : CacheState) :
    (authenticate r now st).2.methodNodesCache = st.methodNodesCache := by
  rcases st with ⟨ct, mc, ic⟩
  cases ct with
  | none => cases r <;> simp [authenticate, authenticate_fresh]
  | some p =>
    obtain ⟨t, e⟩ := p
    by_cases h : now < e <;> cases r <;> simp [authenticate, authenticate_fresh, h]

theorem authenticate_impactCache (r : FetchResult String) (now : Time) (st : CacheState) :
    (authenticate r now st).2.impactCache = st.impactCache := by
  rcases st with ⟨ct, mc, ic⟩
  cases ct with
  | none => cases r <;> simp [authenticate, authenticate_fresh]
  | some p =>
    obtain ⟨t, e⟩ := p
    by_cases h : now < e <;> cases r <;> simp [authenticate, authenticate_fresh, h]

theorem get_method_nodes_hit {st : CacheState} {now : Time} {mv sn : String}
    {ns : List Node} {e : Time} (a : FetchResult String) (r : FetchResult (List Node))
    (h : st.methodNodesCache.lookup (mv ++ ":" ++ sn) = some (ns, e)) (hlt : now < e) :
    get_method_nodes a r mv sn now st = (ns, st) := by
  simp [get_method_nodes, h, hlt]

theorem get_method_nodes_stale {st : CacheState} {now : Time} {mv sn : String}
    (a : FetchResult String) (r : FetchResult (List Node))
    (h : MethodStale st (mv ++ ":" ++ sn) now) :
    get_method_nodes a r mv sn now st =
      get_method_nodes_fetch a r (mv ++ ":" ++ sn) now st := by
  unfold get_method_nodes
  cases hc : st.methodNodesCache.lookup (mv ++ ":" ++ sn) with
  | none => simp [hc]
  | some p =>
    obtain ⟨ns, e⟩ := p
    have hle := h ns e hc
    simp [hc, Nat.not_lt.mpr hle]

theorem get_method_nodes_fetch_ok {a : FetchResult String} {tok : String}
    {st st1 : CacheState} (key : String) (now : Time) (ns : List Node)
    (hauth : authenticate a now st = (some tok, st1)) :
    get_method_nodes_fetch a (FetchResult.ok ns) key now st =
      (ns, { st1 with methodNodesCache := cacheInsert st1.methodNodesCache key (ns, now + METHOD_CACHE_TTL) }) := by
  simp [get_method_nodes_fetch, hauth]

theorem get_method_nodes_fetch_err (a : FetchResult String) {r : FetchResult (List Node)}
    (key : String) (now : Time) (st : CacheState) (hr : IsErrResp r) :
    (get_method_nodes_fetch a r key now st).1 = [] ∧
    (get_method_nodes_fetch a r key now st).2.methodNodesCache = st.methodNodesCache := by
  unfold get_method_nodes_fetch
  cases hauth : authenticate a now st with
  | mk o st1 =>
    have hmc : st1.methodNodesCache = st.methodNodesCache := by
      have h0 := authenticate_methodCache a now st
      rw [hauth] at h0
      exact h0
    cases o with
    | none => simpa using hmc
    | some tok =>
      cases r with
      | ok v => exact absurd hr (by simp [IsErrResp])
      | timeout => simpa using hmc
      | httpError s => simpa using hmc
      | error => simpa using hmc

theorem get_method_nodes_fetch_authfail {a : FetchResult String} (r : FetchResult (List Node))
    (key : String) {now : Time} {st : CacheState} (ha : IsErrResp a)
    (hstale : TokenStale st now) :
    get_method_nodes_fetch a r key now st = ([], st) := by
  simp [get_method_nodes_fetch, authenticate_fail ha hstale]

theorem get_impact_hit {st : CacheState} {now : Time} {id : JVal}
    {v : ImpactData} {e : Time} (a : FetchResult String) (r : FetchResult ImpactData)
    (h : st.impactCache.lookup id = some (v, e)) (hlt : now < e) :
    get_impact a r id now st = (some v, st) := by
  simp [get_impact, h, hlt]

theorem get_impact_stale {st : CacheState} {now : Time} {id : JVal}
    (a : FetchResult String) (r : FetchResult ImpactData) (h : ImpactStale st id now) :
    get_impact a r id now st = get_impact_fetch a r id now st := by
  unfold get_impact
  cases hc : st.impactCache.lookup id with
  | none => simp [hc]
  | some p =>
    obtain ⟨v, e⟩ := p
    have hle := h v e hc
    simp [hc, Nat.not_lt.mpr hle]

theorem get_impact_fetch_ok {a : FetchResult String} {tok : String} {st st1 : CacheState}
    (id : JVal) (now : Time) (raw : ImpactData)
    (hauth : authenticate a now st = (some tok, st1)) :
    get_impact_fetch a (FetchResult.ok raw) id now st =
      (some (strip_unused_properties raw), { st1 with impactCache := cacheInsert st1.impactCache id (strip_unused_properties raw, now + IMPACT_CACHE_TTL) }) := by
  simp [get_impact_fetch, hauth]

theorem get_impact_fetch_err (a : FetchResult String) {r : FetchResult ImpactData}
    (id : JVal) (now : Time) (st : CacheState) (hr : IsErrResp r) :
    (get_impact_fetch a r id now st).1 = none ∧
    (get_impact_fetch a r id now st).2.impactCache = st.impactCache := by
  unfold get_impact_fetch
  cases hauth : authenticate a now st with
  | mk o st1 =>
    have hic : st1.impactCache = st.impactCache := by
      have h0 := authenticate_impactCache a now st
      rw [hauth] at h0
      exact h0
    cases o with
    | none => simpa using hic
    | some tok =>
      cases r with
      | ok v => exact absurd hr (by simp [IsErrResp])
      | timeout => simpa using hic
      | httpError s => simpa using hic
      | error => simpa using hic

theorem stFreshTokenStale : TokenStale stFresh 200 := by
  intro t e h
  have h2 : (some ("tok0", (100 : Time)) : Option (String × Time)) = some (t, e) := h
  simp only [Option.some.injEq, Prod.mk.injEq] at h2
  obtain ⟨h4, h5⟩ := h2
  subst h5
  decide

theorem stFreshMethodStale : MethodStale stFresh ("mv" ++ ":" ++ "foo") 200 := by
  intro ns e h
  have h2 : (some ([fixNode], (100 : Time)) : Option (List Node × Time)) = some (ns, e) := h
  simp only [Option.some.injEq, Prod.mk.injEq] at h2
  obtain ⟨h4, h5⟩ := h2
  subst h5
  decide

theorem stFreshImpactStale : ImpactStale stFresh (JVal.str "n1") 200 := by
  intro v e h
  have h2 : (some (fixImpact, (100 : Time)) : Option (ImpactData × Time)) = some (v, e) := h
  simp only [Option.some.injEq, Prod.mk.injEq] at h2
  obtain ⟨h4, h5⟩ := h2
  subst h5
  decide

theorem lookup_filter_by_key {ν : Type} (q : String → Bool) (ps : List (String × ν)) (k : String) :
    (ps.filter (fun kv => q kv.1)).lookup k = if q k then ps.lookup k else none := by
  induction ps with
  | nil => cases hq : q k <;> simp [List.filter, hq]
  | cons kv t ih =>
    cases hq : q kv.1 with
    | false =>
      rw [List.filter_cons_of_neg (by simp [hq])]
      rw [ih]
      cases hqk : q k with
      | false => simp
      | true =>
        simp only [if_true]
        have hne : (k == kv.1) = false := by
          apply beq_eq_false_iff_ne.mpr
          intro he
          rw [he, hq] at hqk
          exact Bool.false_ne_true hqk
        simp [List.lookup, hne]
    | true =>
      rw [List.filter_cons_of_pos (by simp [hq])]
      cases hbeq : (k == kv.1) with
      | true =>
        have hk : k = kv.1 := eq_of_beq hbeq
        rw [hk, hq]
        simp [List.lookup]
      | false => cases hqk : q k <;> simp [List.lookup, hbeq, ih, hqk]

theorem lookup_strip_removed (ps : List (String × JVal)) {k : String}
    (hk : k ∈ removed_property_keys) :
    (ps.filter (fun kv => !(removed_property_keys.contains kv.1))).lookup k = none := by
  have hq : (!(removed_property_keys.contains k)) = false := by
    simp [hk]
  rw [lookup_filter_by_key (fun s => !(removed_property_keys.contains s)) ps k, hq]
  simp

theorem lookup_strip_kept (ps : List (String × JVal)) {k : String}
    (hk : k ∉ removed_property_keys) :
    (ps.filter (fun kv => !(removed_property_keys.contains kv.1))).lookup k = ps.lookup k := by
  have hq : (!(removed_property_keys.contains k)) = true := by simp [hk]
  rw [lookup_filter_by_key (fun s => !(removed_property_keys.contains s)) ps k, hq]
  simp

/-! Claim theorems. -/

/-- Claim C2: cache freshness.  For each cache table — the singleton token
slot, the method-node table keyed by view id and short name, and the impact
table keyed by node id — a lookup strictly before the stored entry's expiry
returns the stored value unchanged and performs no server request (the result
does not depend on the response oracles), while a lookup at or after expiry (or
with no entry) performs a fresh fetch and, on success, stores the fetched value
with expiry `now + TTL`. -/
theorem cache_freshness :
    (∀ (st : CacheState) (now : Time) (tok : String) (e : Time) (r r2 : FetchResult String),
      st.cachedToken = some (tok, e) → now < e →
      authenticate r now st = (some tok, st) ∧ authenticate r now st = authenticate r2 now st)
  ∧ (∀ (st : CacheState) (now : Time) (tok : String), TokenStale st now →
      authenticate (FetchResult.ok tok) now st =
        (some tok, { st with cachedToken := some (tok, now + TOKEN_CACHE_TTL) }))
  ∧ (∀ (st : CacheState) (now : Time) (mv sn : String) (ns : List Node) (e : Time)
      (a a2 : FetchResult String) (r r2 : FetchResult (List Node)),
      st.methodNodesCache.lookup (mv ++ ":" ++ sn) = some (ns, e) → now < e →
      get_method_nodes a r mv sn now st = (ns, st) ∧
      get_method_nodes a r mv sn now st = get_method_nodes a2 r2 mv sn now st)
  ∧ (∀ (st st1 : CacheState) (now : Time) (mv sn : String) (a : FetchResult String)
      (tok : String) (ns : List Node),
      MethodStale st (mv ++ ":" ++ sn) now →
      authenticate a now st = (some tok, st1) →
      get_method_nodes a (FetchResult.ok ns) mv sn now st =
        (ns, { st1 with methodNodesCache := cacheInsert st1.methodNodesCache (mv ++ ":" ++ sn) (ns, now + METHOD_CACHE_TTL) }) ∧
      (get_method_nodes a (FetchResult.ok ns) mv sn now st).2.methodNodesCache.lookup (mv ++ ":" ++ sn)
        = some (ns, now + METHOD_CACHE_TTL))
  ∧ (∀ (st : CacheState) (now : Time) (id : JVal) (v : ImpactData) (e : Time)
      (a a2 : FetchResult String) (r r2 : FetchResult ImpactData),
      st.impactCache.lookup id = some (v, e) → now < e →
      get_impact a r id now st = (some v, st) ∧
      get_impact a r id now st = get_impact a2 r2 id now st)
  ∧ (∀ (st st1 : CacheState) (now : Time) (id : JVal) (a : FetchResult String)
      (tok : String) (raw : ImpactData),
      ImpactStale st id now →
      authenticate a now st = (some tok, st1) →
      get_impact a (FetchResult.ok raw) id now st =
        (some (strip_unused_properties raw), { st1 with impactCache := cacheInsert st1.impactCache id (strip_unused_properties raw, now + IMPACT_CACHE_TTL) }) ∧
      (get_impact a (FetchResult.ok raw) id now st).2.impactCache.lookup id
        = some (strip_unused_properties raw, now + IMPACT_CACHE_TTL)) := by
  refine ⟨?_, ?_, ?_, ?_, ?_, ?_⟩
  · intro st now tok e r r2 h hlt
    exact ⟨authenticate_hit r h hlt, by rw [authenticate_hit r h hlt, authenticate_hit r2 h hlt]⟩
  · intro st now tok h
    rw [authenticate_stale _ h]
    rfl
  · intro st now mv sn ns e a a2 r r2 h hlt
    exact ⟨get_method_nodes_hit a r h hlt,
      by rw [get_method_nodes_hit a r h hlt, get_method_nodes_hit a2 r2 h hlt]⟩
  · intro st st1 now mv sn a tok ns hstale hauth
    have h1 := get_method_nodes_stale a (FetchResult.ok ns) hstale
    have h2 := get_method_nodes_fetch_ok (mv ++ ":" ++ sn) now ns hauth
    rw [h1, h2]
    exact ⟨rfl, lookup_cacheInsert_self _ _ _⟩
  · intro st now id v e a a2 r r2 h hlt
    exact ⟨get_impact_hit a r h hlt,
      by rw [get_impact_hit a r h hlt, get_impact_hit a2 r2 h hlt]⟩
  · intro st st1 now id a tok raw hstale hauth
    have h1 := get_impact_stale a (FetchResult.ok raw) hstale
    have h2 := get_impact_fetch_ok id now raw hauth
    rw [h1, h2]
    exact ⟨rfl, lookup_cacheInsert_self _ _ _⟩

/-- Claim C9: failed searches are never cached.  When the method-node table
holds no valid entry and the search or authentication request fails, the call
returns the empty list with the method-node table left unchanged, so a later
call with the same key issues a new request and (on success) caches its result;
by contrast a successful response whose data list is empty is cached under the
full TTL, so subsequent calls before expiry serve the empty list from cache. -/
theorem failed_search_not_cached :
    (∀ (a : FetchResult String) (r : FetchResult (List Node)) (mv sn : String) (now : Time)
       (st : CacheState), MethodStale st (mv ++ ":" ++ sn) now →
       (IsErrResp r ∨ (TokenStale st now ∧ IsErrResp a)) →
       (get_method_nodes a r mv sn now st).1 = [] ∧
       (get_method_nodes a r mv sn now st).2.methodNodesCache = st.methodNodesCache)
  ∧ (∀ (a a2 : FetchResult String) (r : FetchResult (List Node)) (mv sn : String)
       (now now2 : Time) (st st1 st2 : CacheState) (tok : String) (ns2 : List Node),
       st.methodNodesCache.lookup (mv ++ ":" ++ sn) = none →
       (IsErrResp r ∨ (TokenStale st now ∧ IsErrResp a)) →
       (get_method_nodes a r mv sn now st).2 = st1 →
       authenticate a2 now2 st1 = (some tok, st2) →
       get_method_nodes a2 (FetchResult.ok ns2) mv sn now2 st1 =
         (ns2, { st2 with methodNodesCache := cacheInsert st2.methodNodesCache (mv ++ ":" ++ sn) (ns2, now2 + METHOD_CACHE_TTL) }))
  ∧ (∀ (a a2 : FetchResult String) (r2 : FetchResult (List Node)) (mv sn : String)
       (now now2 : Time) (st st1 : CacheState) (tok : String),
       MethodStale st (mv ++ ":" ++ sn) now →
       authenticate a now st = (some tok, st1) →
       now2 < now + METHOD_CACHE_TTL →
       (get_method_nodes a (FetchResult.ok []) mv sn now st).1 = [] ∧
       get_method_nodes a2 r2 mv sn now2 (get_method_nodes a (FetchResult.ok []) mv sn now st).2 =
         ([], (get_method_nodes a (FetchResult.ok []) mv sn now st).2)) := by
  have main : ∀ (a : FetchResult String) (r : FetchResult (List Node)) (mv sn : String)
      (now : Time) (st : CacheState), MethodStale st (mv ++ ":" ++ sn) now →
      (IsErrResp r ∨ (TokenStale st now ∧ IsErrResp a)) →
      (get_method_nodes a r mv sn now st).1 = [] ∧
      (get_method_nodes a r mv sn now st).2.methodNodesCache = st.methodNodesCache := by
    intro a r mv sn now st hstale herr
    rw [get_method_nodes_stale a r hstale]
    cases herr with
    | inl hr => exact get_method_nodes_fetch_err a _ now st hr
    | inr hp =>
      rw [get_method_nodes_fetch_authfail r _ hp.2 hp.1]
      exact ⟨rfl, rfl⟩
  refine ⟨main, ?_, ?_⟩
  · intro a a2 r mv sn now now2 st st1 st2 tok ns2 hnone herr hst1 hauth
    have hmc : st1.methodNodesCache = st.methodNodesCache := by
      rw [← hst1]
      exact (main a r mv sn now st (fun ns e h => by rw [hnone] at h; exact Option.noConfusion h)
        herr).2
    have hstale1 : MethodStale st1 (mv ++ ":" ++ sn) now2 := by
      intro ns e h
      rw [hmc, hnone] at h
      exact Option.noConfusion h
    rw [get_method_nodes_stale a2 (FetchResult.ok ns2) hstale1]
    exact get_method_nodes_fetch_ok _ now2 ns2 hauth
  · intro a a2 r2 mv sn now now2 st st1 tok hstale hauth hlt
    have h1 := get_method_nodes_stale a (FetchResult.ok []) hstale
    have h2 := get_method_nodes_fetch_ok (mv ++ ":" ++ sn) now ([] : List Node) hauth
    rw [h1, h2]
    refine ⟨rfl, ?_⟩
    exact get_method_nodes_hit a2 r2 (lookup_cacheInsert_self _ _ _) hlt

/-- Witness for C9: on the empty cache a timed-out search returns the empty
list without caching it; a retry then fetches and caches fresh nodes; and a
successful empty search result is cached and replayed from cache before
expiry. -/
theorem failed_search_not_cached_witness :
    ((get_method_nodes (FetchResult.ok "tok") FetchResult.timeout "mv" "foo" 0 emptyCache).1 = [] ∧
     (get_method_nodes (FetchResult.ok "tok") FetchResult.timeout "mv" "foo" 0 emptyCache).2.methodNodesCache = emptyCache.methodNodesCache) ∧
    (get_method_nodes (FetchResult.ok "tok2") (FetchResult.ok [fixNode]) "mv" "foo" 1 stTok =
      ([fixNode], { stTok with methodNodesCache := cacheInsert stTok.methodNodesCache ("mv" ++ ":" ++ "foo") ([fixNode], 1 + METHOD_CACHE_TTL) })) ∧
    ((get_method_nodes (FetchResult.ok "tok") (FetchResult.ok []) "mv" "foo" 0 emptyCache).1 = [] ∧
     get_method_nodes FetchResult.error FetchResult.error "mv" "foo" 10
        (get_method_nodes (FetchResult.ok "tok") (FetchResult.ok []) "mv" "foo" 0 emptyCache).2 =
       ([], (get_method_nodes (FetchResult.ok "tok") (FetchResult.ok []) "mv" "foo" 0 emptyCache).2)) := by
  refine ⟨?_, ?_, ?_⟩
  · exact failed_search_not_cached.1 (FetchResult.ok "tok") FetchResult.timeout "mv" "foo" 0
      emptyCache (fun ns e h => Option.noConfusion h) (Or.inl trivial)
  · exact failed_search_not_cached.2.1 (FetchResult.ok "tok") (FetchResult.ok "tok2")
      FetchResult.timeout "mv" "foo" 0 1 emptyCache stTok stTok "tok" [fixNode] rfl
      (Or.inl trivial) (by decide) (by decide)
  · exact failed_search_not_cached.2.2 (FetchResult.ok "tok") FetchResult.error FetchResult.error
      "mv" "foo" 0 10 emptyCache stTok "tok" (fun ns e h => Option.noConfusion h) (by decide)
      (by decide)

/-- Claim C3: fail-soft search.  When the method-node table holds no valid
entry and the search request (or the authentication inside it) fails with a
timeout, HTTP error or any other exception, `get_method_nodes` returns the
empty list rather than raising; and when the handler receives an empty node
list it returns the `Unable to Analyze` report text. -/
theorem fail_soft_search :
    (∀ (a : FetchResult String) (r : FetchResult (List Node)) (mv sn : String) (now : Time)
       (st : CacheState), MethodStale st (mv ++ ":" ++ sn) now →
       (IsErrResp r ∨ (TokenStale st now ∧ IsErrResp a)) →
       (get_method_nodes a r mv sn now st).1 = [])
  ∧ (∀ (host : String) (a dr vr : FetchResult String) (sr : FetchResult (List Node))
       (F : JVal → FetchResult ImpactData) (m : String) (cls : Option String) (now : Time)
       (st st1 st2 : CacheState) (mvid : String),
       m ≠ "" →
       get_mv_id a dr vr now st = (some mvid, st1) →
       get_method_nodes a sr mvid m now st1 = ([], st2) →
       handle_method_impact host a dr vr sr F (some { method := some m, className := cls }) now st
         = (ToolResult.text (unable_to_analyze_report host m), st2)) := by
  constructor
  · intro a r mv sn now st hstale herr
    rw [get_method_nodes_stale a r hstale]
    cases herr with
    | inl hr => exact (get_method_nodes_fetch_err a _ now st hr).1
    | inr hp => rw [get_method_nodes_fetch_authfail r _ hp.2 hp.1]
  · intro host a dr vr sr F m cls now st st1 st2 mvid hm hmv hsearch
    simp [handle_method_impact, handle_method_impact_core, hm, hmv, hsearch]

/-- Witness for C3: on the empty cache a timed-out search yields the empty
list, and the handler then renders the `Unable to Analyze` report. -/
theorem fail_soft_search_witness :
    ((get_method_nodes (FetchResult.ok "tok") FetchResult.timeout "mv" "foo" 0 emptyCache).1 = []) ∧
    (handle_method_impact "h" (FetchResult.ok "tok") (FetchResult.ok "d") (FetchResult.ok "v")
      FetchResult.timeout (fun _ => FetchResult.error)
      (some { method := some "foo", className := none }) 0 emptyCache
      = (ToolResult.text (unable_to_analyze_report "h" "foo"), stTok)) := by
  constructor
  · exact fail_soft_search.1 (FetchResult.ok "tok") FetchResult.timeout "mv" "foo" 0 emptyCache
      (fun ns e h => Option.noConfusion h) (Or.inl trivial)
  · exact fail_soft_search.2 "h" (FetchResult.ok "tok") (FetchResult.ok "d") (FetchResult.ok "v")
      FetchResult.timeout (fun _ => FetchResult.error) "foo" none 0 emptyCache stTok stTok "v"
      (by decide) (by decide) (by decide)

/-- Claim C4: property stripping.  Every node of the payload returned (and
cached) by `get_impact` has none of the designated property keys left in its
property map, while all other properties and the node's top-level fields are
unchanged; the value cached and returned on a miss is exactly the stripped
payload. -/
theorem impact_property_stripping :
    (∀ (d : ImpactData) (i : Nat) (h1 : i < (strip_unused_properties d).nodes.length)
       (h2 : i < d.nodes.length),
       ((strip_unused_properties d).nodes.get ⟨i, h1⟩).id = (d.nodes.get ⟨i, h2⟩).id ∧
       ((strip_unused_properties d).nodes.get ⟨i, h1⟩).identity = (d.nodes.get ⟨i, h2⟩).identity ∧
       ((strip_unused_properties d).nodes.get ⟨i, h1⟩).name = (d.nodes.get ⟨i, h2⟩).name ∧
       ((strip_unused_properties d).nodes.get ⟨i, h1⟩).primaryLabel = (d.nodes.get ⟨i, h2⟩).primaryLabel ∧
       (∀ k, k ∈ removed_property_keys →
         ((strip_unused_properties d).nodes.get ⟨i, h1⟩).properties.lookup k = none) ∧
       (∀ k, k ∉ removed_property_keys →
         ((strip_unused_properties d).nodes.get ⟨i, h1⟩).properties.lookup k =
           (d.nodes.get ⟨i, h2⟩).properties.lookup k))
  ∧ (∀ d : ImpactData, (strip_unused_properties d).relationships = d.relationships)
  ∧ (∀ (st st1 : CacheState) (now : Time) (id : JVal) (a : FetchResult String) (tok : String)
       (raw : ImpactData), ImpactStale st id now → authenticate a now st = (some tok, st1) →
       get_impact a (FetchResult.ok raw) id now st =
         (some (strip_unused_properties raw), { st1 with impactCache := cacheInsert st1.impactCache id (strip_unused_properties raw, now + IMPACT_CACHE_TTL) })) := by
  refine ⟨?_, fun d => rfl, ?_⟩
  · intro d i h1 h2
    have he : (strip_unused_properties d).nodes.get ⟨i, h1⟩ = strip_node (d.nodes.get ⟨i, h2⟩) := by
      simp [strip_unused_properties, List.get_eq_getElem, List.getElem_map]
    rw [he]
    exact ⟨rfl, rfl, rfl, rfl,
      fun k hk => lookup_strip_removed _ hk,
      fun k hk => lookup_strip_kept _ hk⟩
  · intro st st1 now id a tok raw hstale hauth
    rw [get_impact_stale a (FetchResult.ok raw) hstale]
    exact get_impact_fetch_ok id now raw hauth

/-- Witness for C4: on a concrete payload the `agentIds` key is gone after
stripping, the complexity statistic survives unchanged, the relationships pass
through, and a cache miss stores and returns exactly the stripped payload. -/
theorem impact_property_stripping_witness :
    ((strip_unused_properties fixRaw).nodes.get ⟨0, by simp [strip_unused_properties, fixRaw]⟩).properties.lookup "agentIds" = none ∧
    ((strip_unused_properties fixRaw).nodes.get ⟨0, by simp [strip_unused_properties, fixRaw]⟩).properties.lookup "statistics.cyclomaticComplexity"
      = (fixRaw.nodes.get ⟨0, by simp [fixRaw]⟩).properties.lookup "statistics.cyclomaticComplexity" ∧
    (strip_unused_properties fixRaw).relationships = fixRaw.relationships ∧
    get_impact (FetchResult.ok "tok") (FetchResult.ok fixRaw) (JVal.str "n1") 0 emptyCache =
      (some (strip_unused_properties fixRaw), { stTok with impactCache := cacheInsert stTok.impactCache (JVal.str "n1") (strip_unused_properties fixRaw, 0 + IMPACT_CACHE_TTL) }) := by
  refine ⟨?_, ?_, ?_, ?_⟩
  · exact (impact_property_stripping.1 fixRaw 0 (by simp [strip_unused_properties, fixRaw])
      (by simp [fixRaw])).2.2.2.2.1 "agentIds" (by decide)
  · exact (impact_property_stripping.1 fixRaw 0 (by simp [strip_unused_properties, fixRaw])
      (by simp [fixRaw])).2.2.2.2.2 "statistics.cyclomaticComplexity" (by decide)
  · exact impact_property_stripping.2.1 fixRaw
  · exact impact_property_stripping.2.2 emptyCache stTok 0 (JVal.str "n1") (FetchResult.ok "tok")
      "tok" fixRaw (fun v e h => Option.noConfusion h) (by decide)

theorem find?_exists {α : Type} (p : α → Bool) (l : List α) (hx : ∃ x, x ∈ l ∧ p x = true) :
    ∃ y, l.find? p = some y ∧ p y = true ∧ y ∈ l := by
  have h1 : (l.find? p).isSome := List.find?_isSome.mpr hx
  obtain ⟨y, hy⟩ := Option.isSome_iff_exists.mp h1
  exact ⟨y, hy, List.find?_some hy, List.mem_of_find?_eq_some hy⟩

theorem mem_find_method_candidates {nodes : List Node} {m : String} {n : Node} :
    n ∈ find_method_candidates nodes m ↔
      n ∈ nodes ∧ is_method_candidate m n = true := by
  constructor
  · intro h
    obtain ⟨l, hl, hn⟩ := List.mem_flatten.mp h
    obtain ⟨t, ht, rfl⟩ := List.mem_map.mp hl
    obtain ⟨hmem, hpred⟩ := List.mem_filter.mp hn
    rw [Bool.and_eq_true] at hpred
    obtain ⟨hlbl, hsub⟩ := hpred
    refine ⟨hmem, ?_⟩
    unfold is_method_candidate
    rw [Bool.and_eq_true]
    refine ⟨?_, hsub⟩
    have : n.primaryLabel = t := eq_of_beq hlbl
    rw [this]
    exact List.elem_iff.mpr ht
  · intro ⟨hmem, hcand⟩
    rw [is_method_candidate, Bool.and_eq_true] at hcand
    obtain ⟨hcont, hsub⟩ := hcand
    apply List.mem_flatten.mpr
    refine ⟨nodes.filter (fun x =>
      x.primaryLabel == n.primaryLabel && containsSub (strLower x.name) (strLower m)), ?_, ?_⟩
    · exact List.mem_map.mpr ⟨n.primaryLabel, List.elem_iff.mp hcont, rfl⟩
    · exact List.mem_filter.mpr ⟨hmem, by rw [Bool.and_eq_true]; exact ⟨beq_self_eq_true _, hsub⟩⟩

/-- Claim C1 as frozen is refuted by `method_impact_target_resolution_counterexample`
below: when a class name is supplied, the class filter can discard every
complexity-carrying candidate, and the resolution then takes the first
remaining candidate without the statistic.  Amended claim: whenever the graph
contains a method-typed node whose name contains the searched method name
case-insensitively and which carries the complexity statistic, and the class
filter does not exclude every such carrier (no class name given, an empty
class name, or some carrier's identity contains the class name
case-insensitively), the resolution selects a complexity-carrying matching
node, for every ordering of the node list. -/
theorem method_impact_target_resolution :
    ∀ (nodes : List Node) (m : String) (cls : Option String) (rootId : Option JVal)
      (carrier : Node),
      carrier ∈ nodes → is_method_candidate m carrier = true → hasComplexityStat carrier = true →
      (cls = none ∨ cls = some "" ∨
        (∃ c, cls = some c ∧ c ≠ "" ∧ ∃ c2, c2 ∈ nodes ∧ is_method_candidate m c2 = true ∧
          hasComplexityStat c2 = true ∧ containsSub (strLower c2.identity) (strLower c) = true)) →
      ∃ t, resolve_target nodes m cls rootId = some t ∧ is_method_candidate m t = true ∧
        hasComplexityStat t = true := by
  intro nodes m cls rootId carrier hmem hcand hcarry hcls
  have hccands : carrier ∈ find_method_candidates nodes m :=
    mem_find_method_candidates.mpr ⟨hmem, hcand⟩
  rcases hcls with rfl | rfl | ⟨c, rfl, hcne, c2, hc2mem, hc2cand, hc2carry, hc2sub⟩
  · obtain ⟨t, hfind, hpt, htmem⟩ :=
      find?_exists hasComplexityStat (find_method_candidates nodes m) ⟨carrier, hccands, hcarry⟩
    refine ⟨t, ?_, (mem_find_method_candidates.mp htmem).2, hpt⟩
    simp [resolve_target, hfind]
  · obtain ⟨t, hfind, hpt, htmem⟩ :=
      find?_exists hasComplexityStat (find_method_candidates nodes m) ⟨carrier, hccands, hcarry⟩
    refine ⟨t, ?_, (mem_find_method_candidates.mp htmem).2, hpt⟩
    simp [resolve_target, hfind]
  · have hc2cands : c2 ∈ find_method_candidates nodes m :=
      mem_find_method_candidates.mpr ⟨hc2mem, hc2cand⟩
    have hc2fil : c2 ∈ (find_method_candidates nodes m).filter
        (fun n => containsSub (strLower n.identity) (strLower c)) :=
      List.mem_filter.mpr ⟨hc2cands, hc2sub⟩
    have hfilne : (find_method_candidates nodes m).filter
        (fun n => containsSub (strLower n.identity) (strLower c)) ≠ [] :=
      List.ne_nil_of_mem hc2fil
    obtain ⟨t, hfind, hpt, htmem⟩ :=
      find?_exists hasComplexityStat
        ((find_method_candidates nodes m).filter
          (fun n => containsSub (strLower n.identity) (strLower c)))
        ⟨c2, hc2fil, hc2carry⟩
    have htcands : t ∈ find_method_candidates nodes m := (List.mem_filter.mp htmem).1
    refine ⟨t, ?_, (mem_find_method_candidates.mp htcands).2, hpt⟩
    simp [resolve_target, hcne, hfilne, hfind]

/-- Counterexample to claim C1 as frozen: in the graph `c1Nodes` both method
nodes match the searched name `foo`, `cexCarrier` carries the complexity
statistic and `cexNonCarrier` does not, yet with the class argument `Bar`
(whose filter keeps only the statistic-free node) the resolution selects the
node without the statistic. -/
theorem method_impact_target_resolution_counterexample :
    (cexCarrier ∈ c1Nodes ∧ is_method_candidate "foo" cexCarrier = true ∧
      hasComplexityStat cexCarrier = true) ∧
    (cexNonCarrier ∈ c1Nodes ∧ is_method_candidate "foo" cexNonCarrier = true ∧
      hasComplexityStat cexNonCarrier = false) ∧
    resolve_target c1Nodes "foo" (some "Bar") none = some cexNonCarrier := by
  decide

/-- Witness for the amended C1: with no class argument the same graph resolves
to the complexity-carrying node. -/
theorem method_impact_target_resolution_witness :
    ∃ t, resolve_target c1Nodes "foo" none none = some t ∧
      is_method_candidate "foo" t = true ∧ hasComplexityStat t = true := by
  exact method_impact_target_resolution c1Nodes "foo" none none cexCarrier (by decide)
    (by decide) (by decide) (Or.inl rfl)

/-- Claim C6 as frozen is refuted by
`method_impact_class_not_found_counterexample` below: a node whose identity
contains the class name as a plain substring is not matched, because the code
requires the pipe-delimited forms.  Amended claim: with a truthy class name,
the handler raises `No matching class found for <class>` (distinct from the
empty-search report, which is a returned text block) exactly when no search
node's identity contains `|class|` or `|class.class|`; otherwise the first
node whose identity contains one of those patterns is selected and the call
proceeds with it. -/
theorem method_impact_class_not_found :
    ∀ (host : String) (a dr vr : FetchResult String) (sr : FetchResult (List Node))
      (F : JVal → FetchResult ImpactData) (m c : String) (now : Time)
      (st st1 st2 : CacheState) (mvid : String) (nodes : List Node),
      m ≠ "" → c ≠ "" → containsDot c = false →
      get_mv_id a dr vr now st = (some mvid, st1) →
      get_method_nodes a sr mvid m now st1 = (nodes, st2) →
      nodes ≠ [] →
      ((∀ n ∈ nodes, pipe_class_match c n = false) →
        handle_method_impact host a dr vr sr F
            (some { method := some m, className := some c }) now st
          = (ToolResult.raised ("No matching class found for " ++ c), st2)) ∧
      (∀ n, nodes.find? (fun x => pipe_class_match c x) = some n →
        handle_method_impact host a dr vr sr F
            (some { method := some m, className := some c }) now st
          = method_impact_proceed a F m (some c) n now st2) := by
  intro host a dr vr sr F m c now st st1 st2 mvid nodes hm hc hdot hmv hsearch hnn
  have hnorm : normalize_class_name (some c) = some c := by
    simp [normalize_class_name, hdot]
  constructor
  · intro hnone
    have hfind : nodes.find? (fun x => pipe_class_match c x) = none := by
      apply List.find?_eq_none.mpr
      intro x hx
      simp [hnone x hx]
    simp [handle_method_impact, hnorm, handle_method_impact_core, hm, hmv, hsearch, hnn,
      select_search_node, hc, hfind]
  · intro n hfind
    simp [handle_method_impact, hnorm, handle_method_impact_core, hm, hmv, hsearch, hnn,
      select_search_node, hc, hfind]

/-- Counterexample to claim C6 as frozen: the identity of `cexNode6` contains
the supplied class name `Foo` as a substring, yet the call fails with the
class-not-found error rather than proceeding. -/
theorem method_impact_class_not_found_counterexample :
    containsSub cexNode6.identity "Foo" = true ∧
    (handle_method_impact "h" (FetchResult.ok "tok") (FetchResult.ok "d") (FetchResult.ok "v")
      (FetchResult.ok [cexNode6]) (fun _ => FetchResult.error)
      (some { method := some "bar", className := some "Foo" }) 0 emptyCache).1
      = ToolResult.raised "No matching class found for Foo" := by
  decide

/-- Witness for the amended C6: with no pipe-delimited match the call raises
the class-not-found error, and with one the call proceeds with the matched
node. -/
theorem method_impact_class_not_found_witness :
    (handle_method_impact "h" (FetchResult.ok "tok") (FetchResult.ok "d") (FetchResult.ok "v")
      (FetchResult.ok [cexNode6]) (fun _ => FetchResult.error)
      (some { method := some "bar", className := some "Foo" }) 0 emptyCache
      = (ToolResult.raised ("No matching class found for " ++ "Foo"), st6 [cexNode6])) ∧
    (handle_method_impact "h" (FetchResult.ok "tok") (FetchResult.ok "d") (FetchResult.ok "v")
      (FetchResult.ok [fixNode6Match]) (fun _ => FetchResult.error)
      (some { method := some "bar", className := some "Foo" }) 0 emptyCache
      = method_impact_proceed (FetchResult.ok "tok") (fun _ => FetchResult.error) "bar"
          (some "Foo") fixNode6Match 0 (st6 [fixNode6Match])) := by
  constructor
  · exact (method_impact_class_not_found "h" (FetchResult.ok "tok") (FetchResult.ok "d")
      (FetchResult.ok "v") (FetchResult.ok [cexNode6]) (fun _ => FetchResult.error) "bar" "Foo" 0
      emptyCache stTok (st6 [cexNode6]) "v" [cexNode6] (by decide) (by decide) (by decide)
      (by decide) (by decide) (by decide)).1 (by decide)
  · exact (method_impact_class_not_found "h" (FetchResult.ok "tok") (FetchResult.ok "d")
      (FetchResult.ok "v") (FetchResult.ok [fixNode6Match]) (fun _ => FetchResult.error) "bar"
      "Foo" 0 emptyCache stTok (st6 [fixNode6Match]) "v" [fixNode6Match] (by decide) (by decide)
      (by decide) (by decide) (by decide) (by decide)).2 fixNode6Match (by decide)

theorem splitDotAux_ne_nil (l acc : List Char) : splitDotAux l acc ≠ [] := by
  induction l generalizing acc with
  | nil => simp [splitDotAux]
  | cons c rest ih =>
    by_cases hc : c = '.' <;> simp [splitDotAux, hc, ih]

theorem splitDotAux_no_dot (l : List Char) :
    ∀ acc, (∀ ch ∈ acc, ch ≠ '.') →
      ∀ seg ∈ splitDotAux l acc, ∀ ch ∈ seg, ch ≠ '.' := by
  induction l with
  | nil =>
    intro acc hacc seg hseg ch hch
    simp [splitDotAux] at hseg
    subst hseg
    exact hacc ch (List.mem_reverse.mp hch)
  | cons c rest ih =>
    intro acc hacc seg hseg ch hch
    by_cases hc : c = '.'
    · simp [splitDotAux, hc] at hseg
      rcases hseg with rfl | hseg2
      · exact hacc ch (List.mem_reverse.mp hch)
      · exact ih [] (by simp) seg hseg2 ch hch
    · simp [splitDotAux, hc] at hseg
      refine ih (c :: acc) ?_ seg hseg ch hch
      intro x hx
      rcases List.mem_cons.mp hx with rfl | hx2
      · exact hc
      · exact hacc x hx2

theorem getLastD_of_ne_nil {α : Type} : ∀ (l : List α) (d : α), l ≠ [] → l.getLastD d ∈ l
  | [], _, h => absurd rfl h
  | [a], d, _ => by simp [List.getLastD]
  | a :: b :: t, d, _ => by
    rw [List.getLastD_cons]
    exact List.mem_cons_of_mem a (getLastD_of_ne_nil (b :: t) a (by simp))

theorem normalize_last_segment (s : String) (h : containsDot s = true) :
    normalize_class_name (some s) = some (String.mk ((splitDot s.toList).getLastD [])) := by
  have hs : s ≠ "" := by
    intro he
    rw [he] at h
    exact absurd h (by decide)
  simp [normalize_class_name, hs, h]

theorem normalize_fixpoint (s : String) :
    normalize_class_name (some (String.mk ((splitDot s.toList).getLastD []))) =
      some (String.mk ((splitDot s.toList).getLastD [])) := by
  have hseg : ∀ ch ∈ (splitDot s.toList).getLastD [], ch ≠ '.' := by
    intro ch hch
    exact splitDotAux_no_dot s.toList [] (by simp) _
      (getLastD_of_ne_nil _ _ (splitDotAux_ne_nil _ _)) ch hch
  have hdot : containsDot (String.mk ((splitDot s.toList).getLastD [])) = false := by
    unfold containsDot
    cases hb : (String.mk ((splitDot s.toList).getLastD [])).toList.contains '.' with
    | false => rfl
    | true =>
      have hmem : ('.' : Char) ∈ (splitDot s.toList).getLastD [] := List.elem_iff.mp hb
      exact absurd rfl (hseg '.' hmem)
  have hneg : ¬((String.mk ((splitDot s.toList).getLastD [])) ≠ "" ∧
      containsDot (String.mk ((splitDot s.toList).getLastD [])) = true) := by
    intro hcond
    rw [hdot] at hcond
    exact Bool.false_ne_true hcond.2
  simp only [normalize_class_name]
  rw [if_neg hneg]

/-- Claim C10: a class argument containing a dot is truncated to its final
dot-separated segment before any further use, so a fully qualified class
argument behaves identically to the bare final segment throughout the call
(matching and rendered report alike). -/
theorem dotted_class_truncated :
    ∀ (host : String) (a dr vr : FetchResult String) (sr : FetchResult (List Node))
      (F : JVal → FetchResult ImpactData) (m : Option String) (c : String) (now : Time)
      (st : CacheState), containsDot c = true →
      normalize_class_name (some c) = some (String.mk ((splitDot c.toList).getLastD [])) ∧
      handle_method_impact host a dr vr sr F (some { method := m, className := some c }) now st =
        handle_method_impact host a dr vr sr F
          (some { method := m, className := some (String.mk ((splitDot c.toList).getLastD [])) })
          now st := by
  intro host a dr vr sr F m c now st h
  refine ⟨normalize_last_segment c h, ?_⟩
  simp only [handle_method_impact]
  rw [normalize_last_segment c h, normalize_fixpoint c]

/-- Witness for C10: the argument `com.example.Foo` is truncated to `Foo` and
the whole call behaves identically to the bare argument. -/
theorem dotted_class_truncated_witness :
    normalize_class_name (some "com.example.Foo") =
      some (String.mk ((splitDot "com.example.Foo".toList).getLastD [])) ∧
    String.mk ((splitDot "com.example.Foo".toList).getLastD []) = "Foo" ∧
    handle_method_impact "h" (FetchResult.ok "tok") (FetchResult.ok "d") (FetchResult.ok "v")
      (FetchResult.ok [fixNode6Match]) (fun _ => FetchResult.error)
      (some { method := some "bar", className := some "com.example.Foo" }) 0 emptyCache =
    handle_method_impact "h" (FetchResult.ok "tok") (FetchResult.ok "d") (FetchResult.ok "v")
      (FetchResult.ok [fixNode6Match]) (fun _ => FetchResult.error)
      (some { method := some "bar", className := some (String.mk ((splitDot "com.example.Foo".toList).getLastD [])) })
      0 emptyCache := by
  have h := dotted_class_truncated "h" (FetchResult.ok "tok") (FetchResult.ok "d")
    (FetchResult.ok "v") (FetchResult.ok [fixNode6Match]) (fun _ => FetchResult.error)
    (some "bar") "com.example.Foo" 0 emptyCache (by decide)
  exact ⟨h.1, by decide, h.2⟩

theorem foldl_preserves {β σ : Type} (step : σ → β → σ) (P : σ → Prop)
    (hstep : ∀ s b, P s → P (step s b)) :
    ∀ (l : List β) (s : σ), P s → P (l.foldl step s) := by
  intro l
  induction l with
  | nil => intro s h; exact h
  | cons b t ih => intro s h; exact ih (step s b) (hstep s b h)

theorem mem_addApp_of_mem {s : List String} {y : String} (x : String) (h : y ∈ s) :
    y ∈ addApp s x := by
  unfold addApp
  split
  · exact h
  · exact List.mem_append.mpr (Or.inl h)

theorem mem_addApp_self (s : List String) (x : String) : x ∈ addApp s x := by
  unfold addApp
  split
  next h => exact h
  next h => exact List.mem_append.mpr (Or.inr (List.mem_singleton.mpr rfl))

theorem find_node_by_id_of_nodup {nodes : List Node} (h : (nodes.map Node.id).Nodup)
    {n : Node} (hn : n ∈ nodes) : find_node_by_id nodes n.id = some n := by
  induction nodes with
  | nil => cases hn
  | cons a t ih =>
    rw [List.map_cons, List.nodup_cons] at h
    rcases List.mem_cons.mp hn with rfl | hmem
    · simp [find_node_by_id]
    · have hne : a.id ≠ n.id := by
        intro he
        exact h.1 (he ▸ List.mem_map.mpr ⟨n, hmem, rfl⟩)
      simp only [find_node_by_id, if_neg hne]
      exact ih h.2 hmem

theorem lookup_append {κ ν : Type} [BEq κ] (m1 m2 : List (κ × ν)) (k : κ) :
    (m1 ++ m2).lookup k =
      match m1.lookup k with
      | some v => some v
      | none => m2.lookup k := by
  induction m1 with
  | nil => rfl
  | cons kv t ih => cases hbeq : (k == kv.1) <;> simp [List.lookup, hbeq, ih]

theorem lookup_appendDep_map (m : List (String × List String)) (k k' v : String) :
    ((m.map (fun kv => if kv.1 == k then (kv.1, kv.2 ++ [v]) else kv)).lookup k') =
      (m.lookup k').map (fun l => if k' == k then l ++ [v] else l) := by
  induction m with
  | nil => rfl
  | cons kv t ih =>
    simp only [List.map_cons]
    by_cases hh : (kv.1 == k) = true
    · rw [if_pos hh]
      cases hbeq : (k' == kv.1) with
      | true =>
        have hk1 : k' = kv.1 := eq_of_beq hbeq
        have hkk : (k' == k) = true := by rw [hk1]; exact hh
        simp [List.lookup, hbeq, hkk]
      | false =>
        simp only [List.lookup, hbeq]
        simpa using ih
    · rw [if_neg hh]
      have hh2 : (kv.1 == k) = false := by
        cases hb2 : (kv.1 == k) with
        | false => rfl
        | true => exact absurd hb2 hh
      cases hbeq : (k' == kv.1) with
      | true =>
        have hk1 : k' = kv.1 := eq_of_beq hbeq
        have hkk : (k' == k) = false := by rw [hk1]; exact hh2
        simp [List.lookup, hbeq, hkk]
      | false =>
        simp only [List.lookup, hbeq]
        simpa using ih

theorem dep_lookup_appendDep_self (m : List (String × List String)) (k v : String) :
    dep_lookup (appendDep m k v) k = dep_lookup m k ++ [v] := by
  unfold appendDep
  by_cases hs : (m.lookup k).isSome = true
  · rw [if_pos hs]
    unfold dep_lookup
    rw [lookup_appendDep_map m k k v]
    obtain ⟨l, hl⟩ := Option.isSome_iff_exists.mp hs
    simp [hl]
  · rw [if_neg hs]
    have hnone : m.lookup k = none := Option.not_isSome_iff_eq_none.mp (by simpa using hs)
    unfold dep_lookup
    rw [lookup_append, hnone]
    simp [List.lookup]

theorem dep_lookup_appendDep_ne (m : List (String × List String)) {k k' : String} (v : String)
    (h : k' ≠ k) : dep_lookup (appendDep m k v) k' = dep_lookup m k' := by
  have hne : (k' == k) = false := beq_eq_false_iff_ne.mpr h
  unfold appendDep
  by_cases hs : (m.lookup k).isSome = true
  · rw [if_pos hs]
    unfold dep_lookup
    rw [lookup_appendDep_map m k k' v, hne]
    cases m.lookup k' <;> simp
  · rw [if_neg hs]
    unfold dep_lookup
    rw [lookup_append]
    cases hl : m.lookup k' <;> simp [hl, List.lookup, hne]

theorem mem_dep_lookup_appendDep {m : List (String × List String)} {k' v0 : String}
    (k v : String) (h : v0 ∈ dep_lookup m k') : v0 ∈ dep_lookup (appendDep m k v) k' := by
  by_cases he : k' = k
  · subst he
    rw [dep_lookup_appendDep_self]
    exact List.mem_append.mpr (Or.inl h)
  · rw [dep_lookup_appendDep_ne m v he]
    exact h

theorem group_ids_step_mono (nodes : List Node) (acc : List String) (n : Node) {y : String}
    (hy : y ∈ acc) : y ∈ group_ids_step nodes acc n := by
  unfold group_ids_step
  split
  · refine foldl_preserves _ (fun s => y ∈ s) ?_ _ _ hy
    intro s g hys
    split
    · exact mem_addApp_of_mem _ hys
    · exact hys
  · exact hy

theorem app_rel_step_groups_mono_aff (raw : List Node) (rel : Rel)
    (acc : List String × List (String × List String)) {y : String}
    (hy : y ∈ acc.1) : y ∈ (app_rel_step_groups raw rel acc).1 := by
  unfold app_rel_step_groups
  split
  · split
    · split
      · exact mem_addApp_of_mem _ hy
      · exact hy
    · exact hy
  · exact hy

theorem app_rel_step_groups_mono_dep (raw : List Node) (rel : Rel)
    (acc : List String × List (String × List String)) {k v0 : String}
    (hv : v0 ∈ dep_lookup acc.2 k) : v0 ∈ dep_lookup (app_rel_step_groups raw rel acc).2 k := by
  unfold app_rel_step_groups
  split
  · split
    · split
      · exact hv
      · exact hv
    · exact hv
  · exact hv

theorem app_rel_step_refs_mono_aff (raw : List Node) (rel : Rel)
    (acc : List String × List (String × List String)) {y : String}
    (hy : y ∈ acc.1) : y ∈ (app_rel_step_refs raw rel acc).1 := by
  unfold app_rel_step_refs
  split
  · split
    · split
      · split
        · exact mem_addApp_of_mem _ hy
        · exact hy
      · exact hy
    · exact hy
  · exact hy

theorem app_rel_step_refs_mono_dep (raw : List Node) (rel : Rel)
    (acc : List String × List (String × List String)) {k v0 : String}
    (hv : v0 ∈ dep_lookup acc.2 k) : v0 ∈ dep_lookup (app_rel_step_refs raw rel acc).2 k := by
  unfold app_rel_step_refs
  split
  · split
    · split
      · split
        · exact mem_dep_lookup_appendDep _ _ hv
        · exact hv
      · exact hv
    · exact hv
  · exact hv

theorem app_rel_step_mono_aff (raw : List Node)
    (acc : List String × List (String × List String)) (rel : Rel) {y : String}
    (hy : y ∈ acc.1) : y ∈ (app_rel_step raw acc rel).1 := by
  unfold app_rel_step
  split
  · exact app_rel_step_refs_mono_aff raw rel _ (app_rel_step_groups_mono_aff raw rel acc hy)
  · exact hy

theorem app_rel_step_mono_dep (raw : List Node)
    (acc : List String × List (String × List String)) (rel : Rel) {k v0 : String}
    (hv : v0 ∈ dep_lookup acc.2 k) : v0 ∈ dep_lookup (app_rel_step raw acc rel).2 k := by
  unfold app_rel_step
  split
  · exact app_rel_step_refs_mono_dep raw rel _ (app_rel_step_groups_mono_dep raw rel acc hv)
  · exact hv

theorem mem_foldl_addApp_name :
    ∀ (l : List Node) (s0 : List String) {n : Node}, n ∈ l →
      n.name ∈ l.foldl (fun acc a => addApp acc a.name) s0 := by
  intro l
  induction l with
  | nil => intro s0 n h; cases h
  | cons a t ih =>
    intro s0 n h
    rcases List.mem_cons.mp h with rfl | hmem
    · simp only [List.foldl_cons]
      exact foldl_preserves _ (fun s => n.name ∈ s) (fun s b hy => mem_addApp_of_mem _ hy) t _
        (mem_addApp_self _ _)
    · simp only [List.foldl_cons]
      exact ih _ hmem

theorem mem_affected_base {nodes : List Node} {n : Node} (hmem : n ∈ nodes)
    (hlbl : n.primaryLabel = "Application") :
    n.name ∈ affected_applications_base nodes := by
  unfold affected_applications_base
  refine foldl_preserves _ (fun s => n.name ∈ s)
    (fun s b hy => group_ids_step_mono nodes s b hy) _ _ ?_
  exact mem_foldl_addApp_name _ _
    (List.mem_filter.mpr ⟨hmem, by simp [hlbl]⟩)

theorem one_lt_length_of_two_mem {l : List String} {a b : String} (ha : a ∈ l) (hb : b ∈ l)
    (hab : a ≠ b) : 1 < l.length := by
  cases l with
  | nil => cases ha
  | cons x t =>
    cases t with
    | nil =>
      have ha2 := List.mem_singleton.mp ha
      have hb2 := List.mem_singleton.mp hb
      exact absurd (ha2.trans hb2.symm) hab
    | cons y t2 =>
      simp only [List.length_cons]
      omega

/-- Claim C7: cross-application dependency mapping.  In any impact graph (with
the response's ids unique, as the data model guarantees) containing two
`Application` nodes joined by a `REFERENCES_GROUP` relationship from `nA` to
`nB`, the application-dependency mapping maps `nA`'s name to a list containing
`nB`'s name, both names are members of the affected-applications set, the set
has more than one element (so the cross-application section of the report is
rendered), and the application list that section iterates over —
`sorted_affected` — is sorted lexicographically and enumerates exactly the
affected set. -/
theorem cross_application_dependency :
    ∀ (d : ImpactData) (nA nB : Node) (rel : Rel),
      (d.nodes.map Node.id).Nodup →
      nA ∈ d.nodes → nB ∈ d.nodes →
      nA.primaryLabel = "Application" → nB.primaryLabel = "Application" →
      rel ∈ d.relationships → rel.type = "REFERENCES_GROUP" →
      rel.startId = nA.id → rel.endId = nB.id →
      nA.name ≠ "" → nA.name ≠ nB.name →
      nB.name ∈ dep_lookup (application_analysis d).2 nA.name ∧
      nA.name ∈ (application_analysis d).1 ∧
      nB.name ∈ (application_analysis d).1 ∧
      1 < (application_analysis d).1.length ∧
      List.Sorted (fun a b => a ≤ b) (sorted_affected (application_analysis d).1) ∧
      (∀ x, x ∈ sorted_affected (application_analysis d).1 ↔ x ∈ (application_analysis d).1) := by
  intro d nA nB rel hnodup hAmem hBmem hAlbl hBlbl hrelmem hrtype hstart hend hAname hAB
  obtain ⟨l1, l2, hsplit⟩ := List.append_of_mem hrelmem
  have hext : extract_nodes d = d.nodes := by simp [extract_nodes]
  have hstep : ∀ acc : List String × List (String × List String),
      app_rel_step d.nodes acc rel = (addApp acc.1 nA.name, appendDep acc.2 nA.name nB.name) := by
    intro acc
    unfold app_rel_step app_rel_step_groups app_rel_step_refs
    rw [hstart, hend, find_node_by_id_of_nodup hnodup hAmem, find_node_by_id_of_nodup hnodup hBmem]
    simp [hrtype, hAlbl, hBlbl, hAname]
  have hana : application_analysis d =
      List.foldl (app_rel_step d.nodes)
        (app_rel_step d.nodes
          (List.foldl (app_rel_step d.nodes)
            (affected_applications_base (extract_nodes d), []) l1) rel) l2 := by
    unfold application_analysis
    rw [hsplit, List.foldl_append, List.foldl_cons]
  have hBbase : nB.name ∈ affected_applications_base (extract_nodes d) := by
    rw [hext]
    exact mem_affected_base hBmem hBlbl
  have hBacc1 : nB.name ∈ (List.foldl (app_rel_step d.nodes)
      (affected_applications_base (extract_nodes d), ([] : List (String × List String))) l1).1 :=
    foldl_preserves _ (fun acc => nB.name ∈ acc.1)
      (fun acc r hy => app_rel_step_mono_aff d.nodes acc r hy) l1 _ hBbase
  have haffA : nA.name ∈ (application_analysis d).1 := by
    rw [hana]
    refine foldl_preserves _ (fun acc => nA.name ∈ acc.1)
      (fun acc r hy => app_rel_step_mono_aff d.nodes acc r hy) l2 _ ?_
    rw [hstep]
    exact mem_addApp_self _ _
  have haffB : nB.name ∈ (application_analysis d).1 := by
    rw [hana]
    refine foldl_preserves _ (fun acc => nB.name ∈ acc.1)
      (fun acc r hy => app_rel_step_mono_aff d.nodes acc r hy) l2 _ ?_
    rw [hstep]
    exact mem_addApp_of_mem _ hBacc1
  have hdep : nB.name ∈ dep_lookup (application_analysis d).2 nA.name := by
    rw [hana]
    refine foldl_preserves _ (fun acc => nB.name ∈ dep_lookup acc.2 nA.name)
      (fun acc r hv => app_rel_step_mono_dep d.nodes acc r hv) l2 _ ?_
    rw [hstep]
    show nB.name ∈ dep_lookup (appendDep _ nA.name nB.name) nA.name
    rw [dep_lookup_appendDep_self]
    exact List.mem_append.mpr (Or.inr (List.mem_singleton.mpr rfl))
  refine ⟨hdep, haffA, haffB, one_lt_length_of_two_mem haffA haffB hAB,
    List.sorted_insertionSort _ _, fun x => List.mem_insertionSort _⟩

/-- Witness for C7: the two-application fixture graph, with the affected set
and dependency mapping evaluated concretely. -/
theorem cross_application_dependency_witness :
    "AppB" ∈ dep_lookup (application_analysis c7Data).2 "AppA" ∧
    "AppA" ∈ (application_analysis c7Data).1 ∧
    "AppB" ∈ (application_analysis c7Data).1 ∧
    1 < (application_analysis c7Data).1.length ∧
    List.Sorted (fun a b => a ≤ b) (sorted_affected (application_analysis c7Data).1) ∧
    ("AppA" ∈ sorted_affected (application_analysis c7Data).1 ↔
      "AppA" ∈ (application_analysis c7Data).1) := by
  have h := cross_application_dependency c7Data appA appB relAB (by decide) (by decide)
    (by decide) (by decide) (by decide) (by decide) (by decide) (by decide) (by decide)
    (by decide) (by decide)
  exact ⟨h.1, h.2.1, h.2.2.1, h.2.2.2.1, h.2.2.2.2.1, h.2.2.2.2.2 "AppA"⟩

/-- Witness for C2: the six freshness facts exercised on a concrete cache
state (entries expiring at 100), once at time 50 (fresh) and once at 200
(expired). -/
theorem cache_freshness_witness :
    (authenticate FetchResult.timeout 50 stFresh = (some "tok0", stFresh)) ∧
    (authenticate (FetchResult.ok "tokNew") 200 stFresh =
      (some "tokNew", { stFresh with cachedToken := some ("tokNew", 200 + TOKEN_CACHE_TTL) })) ∧
    (get_method_nodes FetchResult.timeout FetchResult.error "mv" "foo" 50 stFresh =
      ([fixNode], stFresh)) ∧
    (get_method_nodes (FetchResult.ok "t2") (FetchResult.ok []) "mv" "foo" 200 stFresh =
      ([], { authSt2 with methodNodesCache := cacheInsert authSt2.methodNodesCache ("mv" ++ ":" ++ "foo") ([], 200 + METHOD_CACHE_TTL) })) ∧
    (get_impact FetchResult.timeout FetchResult.error (JVal.str "n1") 50 stFresh =
      (some fixImpact, stFresh)) ∧
    (get_impact (FetchResult.ok "t2") (FetchResult.ok fixImpact) (JVal.str "n1") 200 stFresh =
      (some (strip_unused_properties fixImpact), { authSt2 with impactCache := cacheInsert authSt2.impactCache (JVal.str "n1") (strip_unused_properties fixImpact, 200 + IMPACT_CACHE_TTL) })) := by
  refine ⟨?_, ?_, ?_, ?_, ?_, ?_⟩
  · exact (cache_freshness.1 stFresh 50 "tok0" 100 FetchResult.timeout FetchResult.error rfl
      (by decide)).1
  · exact cache_freshness.2.1 stFresh 200 "tokNew" stFreshTokenStale
  · exact (cache_freshness.2.2.1 stFresh 50 "mv" "foo" [fixNode] 100 FetchResult.timeout
      FetchResult.timeout FetchResult.error FetchResult.error rfl (by decide)).1
  · exact (cache_freshness.2.2.2.1 stFresh authSt2 200 "mv" "foo" (FetchResult.ok "t2") "t2" []
      stFreshMethodStale rfl).1
  · exact (cache_freshness.2.2.2.2.1 stFresh 50 (JVal.str "n1") fixImpact 100 FetchResult.timeout
      FetchResult.timeout FetchResult.error FetchResult.error rfl (by decide)).1
  · exact (cache_freshness.2.2.2.2.2 stFresh authSt2 200 (JVal.str "n1") (FetchResult.ok "t2")
      "t2" fixImpact stFreshImpactStale rfl).1

theorem head?_append_or (l1 l2 : List Char) : (l1 ++ l2).head? = l1.head?.or l2.head? := by
  cases l1 <;> simp

theorem ok_ne_warn (c : JVal) :
    ("\u2705 Complexity is within acceptable limits\n\n" : String) ≠ warn_complexity_line c := by
  intro h
  have hd : ("\u2705 Complexity is within acceptable limits\n\n" : String).data.head?
      = (warn_complexity_line c).data.head? := congrArg (fun s : String => s.data.head?) h
  unfold warn_complexity_line at hd
  rw [String.data_append, String.data_append, head?_append_or, head?_append_or] at hd
  rw [show (("\u2705 Complexity is within acceptable limits\n\n" : String).data.head?)
      = some '\u2705' from by decide] at hd
  rw [show (("\u26a0\ufe0f **Warning**: Cyclomatic complexity of " : String).data.head?)
      = some '\u26a0' from by decide] at hd
  simp only [Option.or_some] at hd
  exact absurd hd (by decide)

theorem complexity_risk_warn_iff (c : JVal) (riskText : String)
    (h : complexity_risk_text c = some riskText) :
    riskText = warn_complexity_line c ↔ ∃ z : Int, jfloat? c = some z ∧ 10 < z := by
  unfold complexity_risk_text at h
  by_cases hna : c = JVal.str "N/A" ∨ c = JVal.null
  · rw [if_pos hna] at h
    have hr : riskText = "\u2705 Complexity is within acceptable limits\n\n" :=
      (Option.some.inj h).symm
    constructor
    · intro hw
      rw [hr] at hw
      exact absurd hw (ok_ne_warn c)
    · rintro ⟨z, hz, h10⟩
      rcases hna with rfl | rfl
      · rw [show jfloat? (JVal.str "N/A") = none from by decide] at hz
        exact Option.noConfusion hz
      · rw [show jfloat? JVal.null = none from rfl] at hz
        exact Option.noConfusion hz
  · rw [if_neg hna] at h
    cases hj : jfloat? c with
    | none =>
      rw [hj] at h
      simp at h
    | some f =>
      rw [hj] at h
      have h2 : (if f > 10 then some (warn_complexity_line c)
          else some ("\u2705 Complexity is within acceptable limits\n\n" : String)) = some riskText := h
      by_cases hf : f > 10
      · rw [if_pos hf] at h2
        have hr : riskText = warn_complexity_line c := (Option.some.inj h2).symm
        exact ⟨fun _ => ⟨f, rfl, hf⟩, fun _ => hr⟩
      · rw [if_neg hf] at h2
        have hr : riskText = "\u2705 Complexity is within acceptable limits\n\n" :=
          (Option.some.inj h2).symm
        constructor
        · intro hw
          rw [hr] at hw
          exact absurd hw (ok_ne_warn c)
        · rintro ⟨z, hz, h10⟩
          have hzf : f = z := Option.some.inj hz
          exfalso
          omega

/-- Claim C8: report heading and complexity threshold.  Every successfully
rendered method-impact report begins with the literal heading
`# Impact Analysis for Method: <method>` (the method name in backticks), the
complexity risk line of its Risk Assessment section appears verbatim inside
the report, and that line is the complexity-exceeds-threshold warning iff the
resolved target complexity converts to a number strictly greater than the
fixed threshold 10 (a target with complexity 12 is flagged; one with 10 or
N/A is not). -/
theorem report_heading_and_complexity_threshold :
    ∀ (m : String) (cls : Option String) (searchNode : Node) (d : ImpactData) (r : String),
      method_impact_report m cls searchNode d = some r →
      (∃ rest, r = report_heading m ++ rest) ∧
      ∃ riskText, complexity_risk_text (report_complexity m cls searchNode d) = some riskText ∧
        (∃ pre post, r = pre ++ riskText ++ post) ∧
        (riskText = warn_complexity_line (report_complexity m cls searchNode d) ↔
          ∃ z : Int, jfloat? (report_complexity m cls searchNode d) = some z ∧ 10 < z) := by
  intro m cls searchNode d r h
  unfold method_impact_report at h
  split at h
  next ntable riskText hnt hrisk =>
    have hr := (Option.some.inj h).symm
    constructor
    · refine ⟨report_summary_block m cls (report_owners m cls searchNode d).1
        (report_owners m cls searchNode d).2 (report_complexity m cls searchNode d)
        (report_instruction_count m cls searchNode d) (application_analysis d).1
        (find_api_endpoints (extract_nodes d) d.relationships).1
        ++ (riskText ++ report_suffix m cls searchNode d ntable), ?_⟩
      rw [hr]
      unfold report_front report_before_risk
      rw [String.append_assoc, String.append_assoc]
    · exact ⟨riskText, hrisk, ⟨_, _, hr⟩, complexity_risk_warn_iff _ _ hrisk⟩
  next hne =>
    exact absurd h (by simp)

/-- Witness for C8: the `addPrefix`/`CompanyInfo` scenario with complexity 12
renders a report that starts with the literal heading and contains the
complexity-exceeds-threshold warning line. -/
theorem report_heading_and_complexity_threshold_witness :
    ∃ r, method_impact_report "addPrefix" (some "CompanyInfo") c8Search c8Data = some r ∧
      (∃ rest, r = report_heading "addPrefix" ++ rest) ∧
      (∃ pre post, r = pre ++ warn_complexity_line (JVal.num 12) ++ post) := by
  have hcx : report_complexity "addPrefix" (some "CompanyInfo") c8Search c8Data = JVal.num 12 := by
    decide
  cases hmr : method_impact_report "addPrefix" (some "CompanyInfo") c8Search c8Data with
  | none => exact absurd hmr (by decide)
  | some r =>
    obtain ⟨hhead, riskText, hrisk, hinr, hiff⟩ :=
      report_heading_and_complexity_threshold "addPrefix" (some "CompanyInfo") c8Search c8Data r hmr
    have hwarnval : complexity_risk_text (JVal.num 12) = some (warn_complexity_line (JVal.num 12)) := by
      decide
    rw [hcx, hwarnval] at hrisk
    have hwr : riskText = warn_complexity_line (JVal.num 12) := (Option.some.inj hrisk).symm
    rw [hwr] at hinr
    exact ⟨r, rfl, hhead, hinr⟩

theorem foldl_append_acc : ∀ (l : List String) (acc : String),
    l.foldl (fun r x => r ++ x) acc = acc ++ l.foldl (fun r x => r ++ x) "" := by
  intro l
  induction l with
  | nil => intro acc; simp [String.append_empty]
  | cons b t ih =>
    intro acc
    simp only [List.foldl_cons]
    rw [ih (acc ++ b), ih ("" ++ b), String.empty_append, String.append_assoc]

theorem foldl_append_extract :
    ∀ (l : List String) (acc : String) {s : String}, s ∈ l →
      ∃ pre post, l.foldl (fun r x => r ++ x) acc = pre ++ s ++ post := by
  intro l
  induction l with
  | nil => intro acc s h; cases h
  | cons b t ih =>
    intro acc s h
    rcases List.mem_cons.mp h with rfl | hmem
    · refine ⟨acc, t.foldl (fun r x => r ++ x) "", ?_⟩
      simp only [List.foldl_cons]
      rw [foldl_append_acc t (acc ++ s)]
    · obtain ⟨pre, post, hp⟩ := ih (acc ++ b) hmem
      exact ⟨pre, post, by simp only [List.foldl_cons]; exact hp⟩

theorem join_extract {l : List String} {s : String} (h : s ∈ l) :
    ∃ pre post, String.join l = pre ++ s ++ post := by
  unfold String.join
  exact foldl_append_extract l "" h

theorem report_contains_of_join {C : String} {l : List String} {s : String} (h : s ∈ l) :
    ∃ pre post, C ++ String.join (l.map (fun x => x ++ "\n")) = pre ++ s ++ post := by
  obtain ⟨pre, post, hp⟩ := join_extract (List.mem_map.mpr ⟨s, h, rfl⟩)
  refine ⟨C ++ pre, "\n" ++ post, ?_⟩
  rw [hp]
  simp only [String.append_assoc]

theorem db_impact_loop_congr :
    ∀ (entities : List DbEntity) (a : FetchResult String)
      (F F2 : JVal → FetchResult ImpactData) (et : String) (now : Time) (st : CacheState),
      (∀ x ∈ entities, F2 (pyEntityId x) = F (pyEntityId x)) →
      db_impact_loop a F2 et entities now st = db_impact_loop a F et entities now st := by
  intro entities
  induction entities with
  | nil => intro a F F2 et now st hFF; rfl
  | cons ent rest ih =>
    intro a F F2 et now st hFF
    unfold db_impact_loop
    rw [hFF ent (List.mem_cons_self _ _)]
    have hrest : ∀ x ∈ rest, F2 (pyEntityId x) = F (pyEntityId x) :=
      fun x hx => hFF x (List.mem_cons_of_mem _ hx)
    cases hgi : get_impact a (F (pyEntityId ent)) (pyEntityId ent) now st with
    | mk o st1 =>
      cases o with
      | some impact_data => simp only [ih a F F2 et now st1 hrest]
      | none => exact ih a F F2 et now st1 hrest

theorem db_impact_loop_spec :
    ∀ (entities : List DbEntity) (st : CacheState) (a : FetchResult String)
      (F : JVal → FetchResult ImpactData) (et : String) (now : Time) (tok : String) (ex : Time),
      st.cachedToken = some (tok, ex) → now < ex →
      (∀ x ∈ entities, st.impactCache.lookup (pyEntityId x) = none) →
      List.Pairwise (fun u v => pyEntityId u ≠ pyEntityId v) entities →
      (db_impact_loop a F et entities now st).1 = batch_summaries F et entities ∧
      (db_impact_loop a F et entities now st).2.cachedToken = st.cachedToken := by
  intro entities
  induction entities with
  | nil => intro st a F et now tok ex htok hlt hcold hpair; exact ⟨rfl, rfl⟩
  | cons ent rest ih =>
    intro st a F et now tok ex htok hlt hcold hpair
    have hauth : authenticate a now st = (some tok, st) := authenticate_hit a htok hlt
    have hstale : ImpactStale st (pyEntityId ent) now := by
      intro v e h
      rw [hcold ent (List.mem_cons_self _ _)] at h
      exact Option.noConfusion h
    have hpairrest := (List.pairwise_cons.mp hpair).2
    have hpairhead := (List.pairwise_cons.mp hpair).1
    cases hF : F (pyEntityId ent) with
    | ok raw =>
      have hgi : get_impact a (F (pyEntityId ent)) (pyEntityId ent) now st =
          (some (strip_unused_properties raw),
           { st with impactCache := cacheInsert st.impactCache (pyEntityId ent) (strip_unused_properties raw, now + IMPACT_CACHE_TTL) }) := by
        rw [hF, get_impact_stale a _ hstale]
        exact get_impact_fetch_ok _ _ _ hauth
      have hcoldrest : ∀ x ∈ rest,
          ({ st with impactCache := cacheInsert st.impactCache (pyEntityId ent) (strip_unused_properties raw, now + IMPACT_CACHE_TTL) } : CacheState).impactCache.lookup (pyEntityId x) = none := by
        intro x hx
        show (cacheInsert st.impactCache (pyEntityId ent) _).lookup (pyEntityId x) = none
        rw [lookup_cacheInsert_ne _ _ (hpairhead x hx).symm]
        exact hcold x (List.mem_cons_of_mem _ hx)
      have hih := ih
        ({ st with impactCache := cacheInsert st.impactCache (pyEntityId ent) (strip_unused_properties raw, now + IMPACT_CACHE_TTL) })
        a F et now tok ex htok hlt hcoldrest hpairrest
      have hloop : db_impact_loop a F et (ent :: rest) now st =
          (process_database_entity_impact (strip_unused_properties raw) et (pyEntityName ent)
              (ent.schema.getD "Unknown") ::
            (db_impact_loop a F et rest now
              { st with impactCache := cacheInsert st.impactCache (pyEntityId ent) (strip_unused_properties raw, now + IMPACT_CACHE_TTL) }).1,
           (db_impact_loop a F et rest now
              { st with impactCache := cacheInsert st.impactCache (pyEntityId ent) (strip_unused_properties raw, now + IMPACT_CACHE_TTL) }).2) := by
        simp only [db_impact_loop, hgi]
      have hbatch : batch_summaries F et (ent :: rest) =
          process_database_entity_impact (strip_unused_properties raw) et (pyEntityName ent)
              (ent.schema.getD "Unknown") :: batch_summaries F et rest := by
        simp only [batch_summaries, List.filterMap_cons, hF]
      rw [hloop, hbatch]
      exact ⟨congrArg (List.cons _) hih.1, hih.2⟩
    | timeout =>
      have hgi : get_impact a (F (pyEntityId ent)) (pyEntityId ent) now st = (none, st) := by
        rw [hF, get_impact_stale a _ hstale]
        simp only [get_impact_fetch, hauth]
      have hih := ih st a F et now tok ex htok hlt
        (fun x hx => hcold x (List.mem_cons_of_mem _ hx)) hpairrest
      have hloop : db_impact_loop a F et (ent :: rest) now st =
          db_impact_loop a F et rest now st := by
        simp only [db_impact_loop, hgi]
      have hbatch : batch_summaries F et (ent :: rest) = batch_summaries F et rest := by
        simp only [batch_summaries, List.filterMap_cons, hF]
      rw [hloop, hbatch]
      exact hih
    | httpError s0 =>
      have hgi : get_impact a (F (pyEntityId ent)) (pyEntityId ent) now st = (none, st) := by
        rw [hF, get_impact_stale a _ hstale]
        simp only [get_impact_fetch, hauth]
      have hih := ih st a F et now tok ex htok hlt
        (fun x hx => hcold x (List.mem_cons_of_mem _ hx)) hpairrest
      have hloop : db_impact_loop a F et (ent :: rest) now st =
          db_impact_loop a F et rest now st := by
        simp only [db_impact_loop, hgi]
      have hbatch : batch_summaries F et (ent :: rest) = batch_summaries F et rest := by
        simp only [batch_summaries, List.filterMap_cons, hF]
      rw [hloop, hbatch]
      exact hih
    | error =>
      have hgi : get_impact a (F (pyEntityId ent)) (pyEntityId ent) now st = (none, st) := by
        rw [hF, get_impact_stale a _ hstale]
        simp only [get_impact_fetch, hauth]
      have hih := ih st a F et now tok ex htok hlt
        (fun x hx => hcold x (List.mem_cons_of_mem _ hx)) hpairrest
      have hloop : db_impact_loop a F et (ent :: rest) now st =
          db_impact_loop a F et rest now st := by
        simp only [db_impact_loop, hgi]
      have hbatch : batch_summaries F et (ent :: rest) = batch_summaries F et rest := by
        simp only [batch_summaries, List.filterMap_cons, hF]
      rw [hloop, hbatch]
      exact hih

/-- C5: Partial batch tolerance with a limit of 5 — for a valid
database-impact call whose entity search returns a non-empty list, impact is
fetched for exactly the first `min(n, 5)` entities (the handler\x27s result
depends only on the oracle\x27s answers for those entities), a per-entity
failure is skipped while the rest of the batch still produces the single
combined report, and every successfully processed entity\x27s summary appears
inside that report. -/
theorem database_impact_partial_batch
    (a : FetchResult String) (dbSearch : List DbEntity)
    (F F2 : JVal → FetchResult ImpactData) (et nm : String) (tov : Option String)
    (now : Time) (st : CacheState) (tok : String) (ex : Time)
    (het : et = "column" ∨ et = "table" ∨ et = "view")
    (hnm : nm ≠ "")
    (hcol : et = "column" → ∃ t, tov = some t ∧ t ≠ "")
    (hne : dbSearch ≠ [])
    (htok : st.cachedToken = some (tok, ex)) (hlt : now < ex)
    (hcold : ∀ x ∈ dbSearch.take 5, st.impactCache.lookup (pyEntityId x) = none)
    (hpair : List.Pairwise (fun u v => pyEntityId u ≠ pyEntityId v) (dbSearch.take 5))
    (hagree : ∀ x ∈ dbSearch.take 5, F2 (pyEntityId x) = F (pyEntityId x)) :
    (handle_database_impact a dbSearch F2
        (some { entity_type := some et, name := some nm, table_or_view := tov }) now st).1 =
      ToolResult.text (generate_combined_database_report et nm tov dbSearch
        (batch_summaries F et (dbSearch.take 5))) ∧
    (handle_database_impact a dbSearch F2
        (some { entity_type := some et, name := some nm, table_or_view := tov }) now
        st).2.cachedToken = st.cachedToken ∧
    (∀ e ∈ dbSearch.take 5, ∀ raw, F (pyEntityId e) = FetchResult.ok raw →
      ∃ pre post,
        generate_combined_database_report et nm tov dbSearch
            (batch_summaries F et (dbSearch.take 5)) =
          pre ++ process_database_entity_impact (strip_unused_properties raw) et
            (pyEntityName e) (e.schema.getD "Unknown") ++ post) := by
  have hval1 : ¬ (et = "" ∨ nm = "") := by
    rintro (h1 | h2)
    · rcases het with rfl | rfl | rfl <;> exact absurd h1 (by decide)
    · exact hnm h2
  have hval2 : et ∈ ["column", "table", "view"] := by
    rcases het with rfl | rfl | rfl <;> decide
  have hval3 : ¬ (et = "column" ∧ (tov = none ∨ tov = some "")) := by
    rintro ⟨h1, h2⟩
    obtain ⟨t, ht, htne⟩ := hcol h1
    rcases h2 with h2 | h2
    · rw [ht] at h2; exact Option.noConfusion h2
    · rw [ht] at h2; exact htne (Option.some.inj h2)
  cases dbSearch with
  | nil => exact absurd rfl hne
  | cons d ds =>
    obtain ⟨spec1, spec2⟩ :=
      db_impact_loop_spec ((d :: ds).take 5) st a F et now tok ex htok hlt hcold hpair
    have hcongr := db_impact_loop_congr ((d :: ds).take 5) a F F2 et now st hagree
    have hh : handle_database_impact a (d :: ds) F2
        (some { entity_type := some et, name := some nm, table_or_view := tov }) now st =
        (ToolResult.text (generate_combined_database_report et nm tov (d :: ds)
            (db_impact_loop a F2 et ((d :: ds).take 5) now st).1),
         (db_impact_loop a F2 et ((d :: ds).take 5) now st).2) := by
      simp only [handle_database_impact]
      rw [if_neg hval1, if_neg (not_not_intro hval2), if_neg hval3]
    refine ⟨?_, ?_, ?_⟩
    · rw [hh]
      show ToolResult.text (generate_combined_database_report et nm tov (d :: ds)
          (db_impact_loop a F2 et ((d :: ds).take 5) now st).1) = _
      rw [hcongr, spec1]
    · rw [hh]
      show (db_impact_loop a F2 et ((d :: ds).take 5) now st).2.cachedToken = st.cachedToken
      rw [hcongr]
      exact spec2
    · intro e he raw hok
      have hmem : process_database_entity_impact (strip_unused_properties raw) et
          (pyEntityName e) (e.schema.getD "Unknown") ∈ batch_summaries F et ((d :: ds).take 5) := by
        unfold batch_summaries
        exact List.mem_filterMap.mpr ⟨e, he, by rw [hok]⟩
      exact report_contains_of_join hmem

/-- Witness for C5: against a two-table search result where the oracle fails
with HTTP 500 on the first entity and succeeds on the second, the handler
returns the combined report built from the surviving batch summaries. -/
theorem database_impact_partial_batch_witness :
    (handle_database_impact (FetchResult.ok "tok") [ent1, ent2] F5
        (some { entity_type := some "table", name := some "tbl1", table_or_view := none })
        0 stTok).1 =
      ToolResult.text (generate_combined_database_report "table" "tbl1" none [ent1, ent2]
        (batch_summaries F5 "table" ([ent1, ent2].take 5))) :=
  (database_impact_partial_batch (FetchResult.ok "tok") [ent1, ent2] F5 F5 "table" "tbl1" none
    0 stTok "tok" TOKEN_CACHE_TTL (Or.inr (Or.inl rfl)) (by decide)
    (fun h => absurd h (by decide)) (by decide) rfl (by decide) (by decide) (by decide)
    (fun x hx => rfl)).1

end CodeLogic
